import Mathlib

/-!
Shallow embedding of the express-model-binding repository: the in-memory
Cache (src/utils/cache.ts), the error classes (src/errors), the binding
orchestrator ModelBinder.bind (src/core/ModelBinder.ts) and the Express
middleware bindModel / bindModels (src/middleware/bindModel.ts).

JavaScript Map iteration order is insertion order and `set` on an existing
key keeps its position, so a Map is embedded as an association list with
update-in-place / append-at-end semantics.  `Date.now()` is passed in
explicitly as a natural number of milliseconds.  Exceptions are embedded
with `Except`.
-/

namespace MB

/-- Lookup in an association list, mirroring `Map.get` / property access. -/
def mapFind? {β : Type} (s : List (String × β)) (k : String) : Option β :=
  match s.find? (fun p => p.1 == k) with
  | some p => some p.2
  | none => none

/-- Update in place when the key is resident, else append, mirroring `Map.set`. -/
def mapSet {β : Type} (s : List (String × β)) (k : String) (v : β) : List (String × β) :=
  if s.any (fun p => p.1 == k) then
    s.map (fun p => if p.1 == k then (k, v) else p)
  else
    s ++ [(k, v)]

/-- Removal of a key, mirroring `Map.delete`. -/
def mapDelete {β : Type} (s : List (String × β)) (k : String) : List (String × β) :=
  s.filter (fun p => p.1 != k)

/-- Cache entry from src/core/types.ts: value with creation timestamp and ttl. -/
structure CacheEntry (α : Type) where
  value : α
  timestamp : Nat
  ttl : Nat
deriving DecidableEq

/-- In-memory cache from src/utils/cache.ts: a `Map` plus a maximum size. -/
structure Cache (α : Type) where
  store : List (String × CacheEntry α)
  maxSize : Nat
deriving DecidableEq

/-- Empty cache, as produced by the constructor. -/
def Cache.empty {α : Type} (maxSize : Nat) : Cache α :=
  { store := [], maxSize := maxSize }

/-- Cache.get: absent or expired keys give null; an entry observed expired is
deleted as a side effect.  Returns the value together with the updated cache. -/
def Cache.get {α : Type} (c : Cache α) (now : Nat) (key : String) :
    Option α × Cache α :=
  match mapFind? c.store key with
  | none => (none, c)
  | some entry =>
    if now - entry.timestamp > entry.ttl then
      (none, { c with store := mapDelete c.store key })
    else
      (some entry.value, c)

/-- Cache.set: when `store.size >= maxSize` the first key of the iteration
order (the insertion-oldest resident key) is deleted, guarded by JavaScript
truthiness of `firstKey` (so an empty-string first key, or an empty store,
skips the eviction); then the entry is written. -/
def Cache.set {α : Type} (c : Cache α) (now : Nat) (key : String) (value : α)
    (ttl : Nat) : Cache α :=
  let store1 :=
    if c.maxSize ≤ c.store.length then
      match c.store.head? with
      | some p => if p.1 = "" then c.store else mapDelete c.store p.1
      | none => c.store
    else c.store
  { c with store := mapSet store1 key { value := value, timestamp := now, ttl := ttl } }

/-- Cache.delete: returns whether the key was resident, and the updated cache. -/
def Cache.delete {α : Type} (c : Cache α) (key : String) : Bool × Cache α :=
  (c.store.any (fun p => p.1 == key), { c with store := mapDelete c.store key })

/-- Cache.clear. -/
def Cache.clear {α : Type} (c : Cache α) : Cache α :=
  { c with store := [] }

/-- Cache.size. -/
def Cache.size {α : Type} (c : Cache α) : Nat :=
  c.store.length

/-- Predicate for an entry being expired at time `now`. -/
def CacheEntry.expired {α : Type} (now : Nat) (e : CacheEntry α) : Bool :=
  now - e.timestamp > e.ttl

/-- Loop body of Cache.prune: every entry observed expired is deleted and
counted; iteration is in insertion order. -/
def pruneStore {α : Type} (now : Nat) :
    List (String × CacheEntry α) → Nat × List (String × CacheEntry α)
  | [] => (0, [])
  | p :: rest =>
    let r := pruneStore now rest
    if CacheEntry.expired now p.2 then (r.1 + 1, r.2) else (r.1, p :: r.2)

/-- Cache.prune: removes expired entries, returning how many were removed. -/
def Cache.prune {α : Type} (c : Cache α) (now : Nat) : Nat × Cache α :=
  let r := pruneStore now c.store
  (r.1, { c with store := r.2 })

/-- Cache.has delegates to get, including its lazy-expiry side effect. -/
def Cache.has {α : Type} (c : Cache α) (now : Nat) (key : String) :
    Bool × Cache α :=
  let r := c.get now key
  (r.1.isSome, r.2)

/-- Cache.keys: all resident keys, including possibly-expired ones. -/
def Cache.keysList {α : Type} (c : Cache α) : List String :=
  c.store.map Prod.fst

/-- Cache.getStats. -/
def Cache.getStats {α : Type} (c : Cache α) : Nat × Nat :=
  (c.store.length, c.maxSize)

/-- Resident keys of a cache, in insertion order. -/
def residentKeys {α : Type} (c : Cache α) : List String :=
  c.store.map Prod.fst

/-- One cache operation, for stating invariants over operation sequences. -/
inductive CacheOp (α : Type) where
  | set (now : Nat) (key : String) (value : α) (ttl : Nat)
  | get (now : Nat) (key : String)
  | del (key : String)
  | clear
  | prune (now : Nat)

/-- State transition of a single cache operation. -/
def applyOp {α : Type} (c : Cache α) : CacheOp α → Cache α
  | .set now k v ttl => c.set now k v ttl
  | .get now k => (c.get now k).2
  | .del k => (c.delete k).2
  | .clear => c.clear
  | .prune now => (c.prune now).2

/-- State after a sequence of cache operations. -/
def applyOps {α : Type} (c : Cache α) (ops : List (CacheOp α)) : Cache α :=
  ops.foldl applyOp c

/-- The key written by a `set` operation is nonempty (other operations are
unconstrained).  Nonempty keys keep the JavaScript `if (firstKey)` eviction
guard honest. -/
def CacheOp.setKeyNe {α : Type} : CacheOp α → Prop
  | .set _ k _ _ => k ≠ ""
  | _ => True

/-- Well-formedness of a cache: distinct keys (a `Map` invariant), nonempty
keys, and size within the bound. -/
def Cache.WF {α : Type} (c : Cache α) : Prop :=
  (c.store.map Prod.fst).Nodup ∧ (∀ k ∈ c.store.map Prod.fst, k ≠ "") ∧
    c.store.length ≤ c.maxSize

/-- Sequential insertion of a list of keys with a fixed value and ttl. -/
def insertSeq {α : Type} (c : Cache α) (now : Nat) (v : α) (ttl : Nat)
    (ks : List String) : Cache α :=
  ks.foldl (fun acc k => acc.set now k v ttl) c

/-- Error values from src/errors/index.ts.  `custom` stands for any foreign
`Error` raised by an adapter, a validator or an `onNotFound` factory. -/
inductive Err where
  | binding (message : String) (originalMessage : String)
  | modelNotFound (paramName : String) (paramValue : String) (modelName : String)
      (customMessage : Option String)
  | adapterNotSet (message : String)
  | custom (message : String)
deriving DecidableEq

/-- Message of an error; for ModelNotFoundError the constructor uses
`customMessage || templated default`. -/
def Err.message : Err → String
  | .binding m _ => m
  | .modelNotFound pn pv mn cm =>
    match cm with
    | some m => m
    | none => mn ++ " not found with " ++ pn ++ " = " ++ pv
  | .adapterNotSet m => m
  | .custom m => m

/-- ModelNotFoundError.paramName, when the error is of that kind. -/
def Err.paramNameOf : Err → Option String
  | .modelNotFound pn _ _ _ => some pn
  | _ => none

/-- ModelNotFoundError.paramValue, when the error is of that kind. -/
def Err.paramValueOf : Err → Option String
  | .modelNotFound _ pv _ _ => some pv
  | _ => none

/-- ModelNotFoundError.modelName, when the error is of that kind. -/
def Err.modelNameOf : Err → Option String
  | .modelNotFound _ _ mn _ => some mn
  | _ => none

/-- Whether the error is the not-found kind. -/
def Err.isNotFound : Err → Bool
  | .modelNotFound _ _ _ _ => true
  | _ => false

/-- Model descriptor shapes distinguished by ModelBinder.getModelName:
a string, an object with optional string-typed name / modelName / tableName
fields, a function with a name, or anything else. -/
inductive ModelDesc where
  | str (s : String)
  | obj (name modelName tableName : Option String)
  | func (name : String)
  | other
deriving DecidableEq

/-- ModelBinder.getModelName: string models name themselves; objects are
probed for string-typed name, modelName, tableName in that order; a function
uses its own name with an `|| 'Unknown'` truthiness fallback. -/
def getModelName : ModelDesc → String
  | .str s => s
  | .obj nm mn tn =>
    match nm with
    | some n => n
    | none =>
      match mn with
      | some n => n
      | none =>
        match tn with
        | some n => n
        | none => "Unknown"
  | .func n => if n = "" then "Unknown" else n
  | .other => "Unknown"

/-- Express request slice that the binder touches: route parameters and the
properties attached by attachToRequest. -/
structure Req (R : Type) where
  params : List (String × String)
  attached : List (String × Option R)

/-- ModelBinder.attachToRequest: writes the value (possibly undefined, for
optional bindings) under the given property name. -/
def attachToRequest {R : Type} (req : Req R) (key : String) (value : Option R) :
    Req R :=
  { req with attached := mapSet req.attached key value }

/-- Value of the `cache` option: `boolean | number` in the source. -/
inductive CacheOpt where
  | bool (b : Bool)
  | num (n : Nat)
deriving DecidableEq

/-- JavaScript truthiness of the optional `cache` option. -/
def CacheOpt.truthy : Option CacheOpt → Bool
  | none => false
  | some (.bool b) => b
  | some (.num n) => n != 0

/-- JavaScript truthiness of an optional string option (empty string is falsy). -/
def truthyStr : Option String → Bool
  | none => false
  | some s => s != ""

/-- Value of the `onNotFound` option: a pre-built error or a factory. -/
inductive OnNotFound where
  | err (e : Err)
  | factory (f : String → String → Err)

/-- Binding options from src/core/types.ts.  `include`, `where` and `select`
are opaque pass-through payloads (they only feed the cache-key hash and the
adapter), embedded as optional strings; `query` is an opaque marker. -/
structure BindOptions (V R : Type) where
  key : Option String
  optional : Bool
  transformValue : Option (String → Except Err V)
  as : Option String
  cache : Option CacheOpt
  cacheTTL : Option Nat
  onNotFound : Option OnNotFound
  errorMessage : Option String
  validate : Option (R → Req R → Except Err Unit)
  «include» : Option String
  «where» : Option String
  select : Option String
  withTrashed : Option Bool
  onlyTrashed : Option Bool
  lock : Option String
  query : Option Unit

/-- Options object with every option absent, `{}` in the source. -/
def emptyOptions {V R : Type} : BindOptions V R :=
  { key := none, optional := false, transformValue := none, as := none,
    cache := none, cacheTTL := none, onNotFound := none, errorMessage := none,
    validate := none, «include» := none, «where» := none, select := none,
    withTrashed := none, onlyTrashed := none, lock := none, query := none }

/-- Pluggable ORM adapter contract from src/core/types.ts; throwing methods
return `Except`. -/
structure Adapter (V R : Type) where
  name : String
  isValidModel : ModelDesc → Bool
  getPrimaryKeyName : ModelDesc → String
  transformValue : ModelDesc → String → String → Except Err V
  findByKey : ModelDesc → String → V → BindOptions V R → Except Err (Option R)

/-- Binding result from src/core/types.ts, minus the wall-clock duration. -/
structure BindingResult (R : Type) where
  success : Bool
  model : Option R
  error : Option Err
  fromCache : Option Bool

/-- Lookup field: `options.key || adapter.getPrimaryKeyName(model)`, with
JavaScript truthiness on the string. -/
def resolveKey {V R : Type} (adapter : Adapter V R) (model : ModelDesc)
    (options : BindOptions V R) : String :=
  match options.key with
  | some k => if k = "" then adapter.getPrimaryKeyName model else k
  | none => adapter.getPrimaryKeyName model

/-- Attachment name: `options.as || paramName`, with truthiness. -/
def attachName {V R : Type} (options : BindOptions V R) (paramName : String) :
    String :=
  match options.as with
  | some s => if s = "" then paramName else s
  | none => paramName

/-- Fallback ttl: a numeric `cache` option value, else 60000. -/
def fallbackTTL : Option CacheOpt → Nat
  | some (.num n) => n
  | _ => 60000

/-- Resolved ttl: `options.cacheTTL || (typeof options.cache === number ?
options.cache : 60000)`, with 0 falsy. -/
def resolveTTL {V R : Type} (options : BindOptions V R) : Nat :=
  match options.cacheTTL with
  | some t => if t != 0 then t else fallbackTTL options.cache
  | none => fallbackTTL options.cache

/-- Rendering of an opaque optional payload inside the options hash. -/
def renderOpt : Option String → String
  | some s => s
  | none => "undefined"

/-- ModelBinder.getCacheKey: model name, lookup field, stringified value and
a rendering of the option subset (key, include, where, select); the
JSON.stringify hash is abstracted as a plain delimited rendering. -/
def getCacheKey {V R : Type} (vstr : V → String) (model : ModelDesc)
    (key : String) (value : V) (options : BindOptions V R) : String :=
  getModelName model ++ ":" ++ key ++ ":" ++ vstr value ++ ":" ++
    key ++ "|" ++ renderOpt options.«include» ++ "|" ++
    renderOpt options.«where» ++ "|" ++ renderOpt options.select

/-- Not-found error construction in ModelBinder.bind: `options.errorMessage`
is checked first (truthiness), then `options.onNotFound` (object or factory),
then the default templated ModelNotFoundError. -/
def notFoundError {V R : Type} (vstr : V → String) (paramName : String)
    (value : V) (model : ModelDesc) (options : BindOptions V R) : Err :=
  if truthyStr options.errorMessage then
    Err.modelNotFound paramName (vstr value) (getModelName model)
      options.errorMessage
  else
    match options.onNotFound with
    | some (.err e) => e
    | some (.factory f) => f paramName (vstr value)
    | none => Err.modelNotFound paramName (vstr value) (getModelName model) none

/-- Typed lookup value: `options.transformValue(paramValue)` when supplied,
else `adapter.transformValue(model, key, paramValue)`. -/
def transformedValue {V R : Type} (adapter : Adapter V R) (model : ModelDesc)
    (options : BindOptions V R) (key : String) (pv : String) : Except Err V :=
  match options.transformValue with
  | some f => f pv
  | none => adapter.transformValue model key pv

/-- Branch of ModelBinder.bind for an undefined, null or empty parameter
value: succeed with an absent bound value when optional, else throw the
missing-parameter BindingError. -/
def missingParamCase {V R : Type} (cache : Cache R) (req : Req R)
    (paramName : String) (options : BindOptions V R) :
    Except (Err × Cache R) (BindingResult R × Req R × Cache R) :=
  if options.optional then
    .ok ({ success := true, model := none, error := none, fromCache := none },
      attachToRequest req (attachName options paramName) none, cache)
  else
    .error (Err.binding
      ("Parameter \x27" ++ paramName ++ "\x27 is required but was not provided")
      "Missing parameter", cache)

/-- Result of running the validate option, `await options.validate(result, req)`
when present. -/
def runValidate {V R : Type} (options : BindOptions V R) (result : R)
    (req : Req R) : Except Err Unit :=
  match options.validate with
  | some v => v result req
  | none => Except.ok ()

/-- Tail of ModelBinder.bind after the cache check: the adapter fetch,
not-found handling, validation, cache write and attachment. -/
def fetchAndFinish {V R : Type} (vstr : V → String) (adapter : Adapter V R)
    (cache : Cache R) (now : Nat) (req : Req R) (paramName : String)
    (model : ModelDesc) (options : BindOptions V R) (key : String) (value : V)
    (cacheKey : String) :
    Except (Err × Cache R) (BindingResult R × Req R × Cache R) :=
  match adapter.findByKey model key value options with
  | .error e => .error (e, cache)
  | .ok none =>
    if options.optional then
      .ok ({ success := true, model := none, error := none, fromCache := none },
        attachToRequest req (attachName options paramName) none, cache)
    else
      .error (notFoundError vstr paramName value model options, cache)
  | .ok (some result) =>
    match runValidate options result req with
    | .error e => .error (e, cache)
    | .ok _ =>
      .ok ({ success := true, model := some result, error := none,
             fromCache := some false },
        attachToRequest req (attachName options paramName) (some result),
        if CacheOpt.truthy options.cache then
          cache.set now cacheKey result (resolveTTL options)
        else cache)

/-- Body of the try block of ModelBinder.bind.  A thrown error is an
`Except.error` carrying the cache state at the throw point (the request is
never mutated before a throw). -/
def bindBody {V R : Type} (vstr : V → String) (adapter : Adapter V R)
    (cache : Cache R) (now : Nat) (req : Req R) (paramName : String)
    (model : ModelDesc) (options : BindOptions V R) :
    Except (Err × Cache R) (BindingResult R × Req R × Cache R) :=
  match mapFind? req.params paramName with
  | none => missingParamCase cache req paramName options
  | some pv =>
    if pv = "" then
      missingParamCase cache req paramName options
    else
      if !(adapter.isValidModel model) then
        .error (Err.binding ("Invalid model for " ++ adapter.name ++ " adapter")
          "Model validation failed", cache)
      else
        match transformedValue adapter model options
            (resolveKey adapter model options) pv with
        | .error e => .error (e, cache)
        | .ok value =>
          if CacheOpt.truthy options.cache then
            match cache.get now (getCacheKey vstr model
                (resolveKey adapter model options) value options) with
            | (some cached, cache1) =>
              .ok ({ success := true, model := some cached, error := none,
                     fromCache := some true },
                attachToRequest req (attachName options paramName) (some cached),
                cache1)
            | (none, cache1) =>
              fetchAndFinish vstr adapter cache1 now req paramName model options
                (resolveKey adapter model options) value
                (getCacheKey vstr model (resolveKey adapter model options)
                  value options)
          else
            fetchAndFinish vstr adapter cache now req paramName model options
              (resolveKey adapter model options) value
              (getCacheKey vstr model (resolveKey adapter model options)
                value options)

/-- ModelBinder.bind: the try/catch around bindBody; a thrown error becomes a
failed BindingResult carrying that error, and the request is returned as it
was at the throw point. -/
def bind {V R : Type} (vstr : V → String) (adapter : Adapter V R)
    (cache : Cache R) (now : Nat) (req : Req R) (paramName : String)
    (model : ModelDesc) (options : BindOptions V R) :
    BindingResult R × Req R × Cache R :=
  match bindBody vstr adapter cache now req paramName model options with
  | .ok out => out
  | .error (e, cache1) =>
    ({ success := false, model := none, error := some e, fromCache := none },
      req, cache1)

/-- ModelBinder.bind including the getAdapter call, which sits outside the try
block: with no adapter configured an AdapterNotSetError escapes the call. -/
def bindTop {V R : Type} (vstr : V → String) (adapterQ : Option (Adapter V R))
    (cache : Cache R) (now : Nat) (req : Req R) (paramName : String)
    (model : ModelDesc) (options : BindOptions V R) :
    Except Err (BindingResult R × Req R × Cache R) :=
  match adapterQ with
  | none => .error (Err.adapterNotSet
      "No adapter set. Call ModelBinder.setAdapter() before using model binding.")
  | some adapter =>
    .ok (bind vstr adapter cache now req paramName model options)

/-- Maximum route-parameter length from src/middleware/bindModel.ts. -/
def MAX_PARAM_VALUE_LENGTH : Nat := 1024

/-- sanitizeParamValue: a falsy value (absent or empty) becomes the empty
string; a value longer than the maximum is cut to its first
MAX_PARAM_VALUE_LENGTH characters (`slice(0, 1024)` is embedded on the
character list). -/
def sanitizeParamValue : Option String → String
  | none => ""
  | some v =>
    if v = "" then ""
    else if v.length > MAX_PARAM_VALUE_LENGTH then
      (v.toList.take MAX_PARAM_VALUE_LENGTH).asString
    else v

/-- Request after the middleware sanitization step
`req.params[paramName] = sanitizeParamValue(req.params[paramName])`. -/
def sanitizeReq {R : Type} (req : Req R) (paramName : String) : Req R :=
  let v := sanitizeParamValue (mapFind? req.params paramName)
  { req with params := mapSet req.params paramName v }

/-- Mapping of a binder outcome to the middleware `next(...)` call: a thrown
error and a failed result are both forwarded, a successful result continues. -/
def mwOutcome {R : Type} (cache : Cache R) (req1 : Req R) :
    Except Err (BindingResult R × Req R × Cache R) →
    Option Err × Req R × Cache R
  | .error e => (some e, req1, cache)
  | .ok (result, req2, cache2) =>
    if result.success then (none, req2, cache2) else (result.error, req2, cache2)

/-- Handler produced by bindModel: an absent parameter with `optional` calls
`next()` at once; otherwise the value is sanitized in place and the binder
runs; a failed result or a thrown error is forwarded to `next(error)`. -/
def bindModelRun {V R : Type} (vstr : V → String)
    (adapterQ : Option (Adapter V R)) (now : Nat) (paramName : String)
    (model : ModelDesc) (options : BindOptions V R) (req : Req R)
    (cache : Cache R) : Option Err × Req R × Cache R :=
  if (mapFind? req.params paramName).isNone ∧ options.optional then
    (none, req, cache)
  else
    let v := sanitizeParamValue (mapFind? req.params paramName)
    let req1 := { req with params := mapSet req.params paramName v }
    mwOutcome cache req1
      (bindTop vstr adapterQ cache now req1 paramName model options)

/-- Per-parameter entry of a bindModels configuration. -/
structure BindingConfig (V R : Type) where
  model : ModelDesc
  options : Option (BindOptions V R)

/-- `config.options || {}`. -/
def configOptions {V R : Type} (c : BindingConfig V R) : BindOptions V R :=
  match c.options with
  | some o => o
  | none => emptyOptions

/-- `config.options?.optional`, the guard of the skip branch. -/
def configOptional {V R : Type} (c : BindingConfig V R) : Bool :=
  match c.options with
  | some o => o.optional
  | none => false

/-- One iteration of the bindModels loop: skip an absent optional parameter,
else sanitize and bind; `none` means the loop continues. -/
def bindModelsStep {V R : Type} (vstr : V → String)
    (adapterQ : Option (Adapter V R)) (now : Nat) (paramName : String)
    (config : BindingConfig V R) (req : Req R) (cache : Cache R) :
    Option Err × Req R × Cache R :=
  if (mapFind? req.params paramName).isNone ∧ configOptional config then
    (none, req, cache)
  else
    let v := sanitizeParamValue (mapFind? req.params paramName)
    let req1 := { req with params := mapSet req.params paramName v }
    mwOutcome cache req1
      (bindTop vstr adapterQ cache now req1 paramName config.model
        (configOptions config))

/-- Handler produced by bindModels: the configured parameters are bound
sequentially; the first iteration that produces an error stops the loop and
forwards it. -/
def bindModelsRun {V R : Type} (vstr : V → String)
    (adapterQ : Option (Adapter V R)) (now : Nat) :
    List (String × BindingConfig V R) → Req R → Cache R →
    Option Err × Req R × Cache R
  | [], req, cache => (none, req, cache)
  | (p, config) :: rest, req, cache =>
    match bindModelsStep vstr adapterQ now p config req cache with
    | (some e, req1, cache1) => (some e, req1, cache1)
    | (none, req1, cache1) => bindModelsRun vstr adapterQ now rest req1 cache1

/-- Attachment name a bindModels entry would use. -/
def entryAttachName {V R : Type} (pc : String × BindingConfig V R) : String :=
  attachName (configOptions pc.2) pc.1

/-- Identity stringification for lookup values embedded as strings. -/
def idStr : String → String := fun s => s

/-- Test adapter whose lookups always miss, with primary key `id`. -/
def adapterMiss : Adapter String Nat :=
  { name := "test", isValidModel := fun _ => true,
    getPrimaryKeyName := fun _ => "id",
    transformValue := fun _ _ s => .ok s,
    findByKey := fun _ _ _ _ => .ok none }

/-- Test adapter holding exactly the record 1 under the value `1`. -/
def adapterOne : Adapter String Nat :=
  { name := "test", isValidModel := fun _ => true,
    getPrimaryKeyName := fun _ => "id",
    transformValue := fun _ _ s => .ok s,
    findByKey := fun _ _ v _ => if v = "1" then .ok (some 1) else .ok none }

/-- Test adapter whose lookups throw a database error. -/
def adapterThrow : Adapter String Nat :=
  { name := "test", isValidModel := fun _ => true,
    getPrimaryKeyName := fun _ => "id",
    transformValue := fun _ _ s => .ok s,
    findByKey := fun _ _ _ _ => .error (.custom "Database error") }

/-- Test request with route parameter user = 999. -/
def reqUser999 : Req Nat := { params := [("user", "999")], attached := [] }

/-- Test request with route parameter user = 1. -/
def reqUser1 : Req Nat := { params := [("user", "1")], attached := [] }

/-- Test request with no route parameters. -/
def reqNoParams : Req Nat := { params := [], attached := [] }

/-- Fresh empty cache with the default maximum size. -/
def cache0 : Cache Nat := Cache.empty 1000

/-- Options carrying both a message override and a custom not-found error. -/
def c1opts : BindOptions String Nat :=
  { (emptyOptions : BindOptions String Nat) with
    errorMessage := some "boom", onNotFound := some (.err (.custom "CUSTOM")) }

/-- Options requesting caching with the boolean flag. -/
def c5opts : BindOptions String Nat :=
  { (emptyOptions : BindOptions String Nat) with cache := some (.bool true) }

/-- Cache holding the record 1 under the cache key the binder computes for
the lookup of User by id = 1. -/
def c5cache : Cache Nat :=
  cache0.set 0 (getCacheKey idStr (.str "User") "id" "1" c5opts) 1 60000

/-- Options with a validator that always throws. -/
def c6opts : BindOptions String Nat :=
  { (emptyOptions : BindOptions String Nat) with
    validate := some (fun _ _ => Except.error (.custom "Forbidden")) }

/-- Options with only the optional flag set. -/
def optionalOpts : BindOptions String Nat :=
  { (emptyOptions : BindOptions String Nat) with optional := true }

/-- Multi-binding entry for an optional Post parameter. -/
def postOptionalCfg : BindingConfig String Nat :=
  { model := .str "Post", options := some optionalOpts }

/-- Multi-binding entry for a required User parameter. -/
def userRequiredCfg : BindingConfig String Nat :=
  { model := .str "User", options := some emptyOptions }

/-- String of 2000 identical characters, longer than the sanitization cap. -/
def longStr : String := (List.replicate 2000 'a').asString

/-- Step lemma for association-list lookup. -/
theorem mapFind?_cons {β : Type} (p : String × β) (t : List (String × β))
    (k : String) :
    mapFind? (p :: t) k = if p.1 = k then some p.2 else mapFind? t k := by
  by_cases h : p.1 = k <;> simp [mapFind?, h]

/-- Key-membership test used by mapSet, phrased through list membership. -/
theorem anyKey_iff {β : Type} (s : List (String × β)) (k : String) :
    s.any (fun p => p.1 == k) = true ↔ k ∈ s.map Prod.fst := by
  simp [List.any_eq_true]

/-- mapSet on a resident key rewrites entries in place. -/
theorem mapSet_of_mem {β : Type} {s : List (String × β)} {k : String} (v : β)
    (h : k ∈ s.map Prod.fst) :
    mapSet s k v = s.map (fun p => if p.1 = k then (k, v) else p) := by
  unfold mapSet
  rw [if_pos ((anyKey_iff s k).mpr h)]
  simp only [beq_iff_eq]

/-- mapSet on a fresh key appends at the end. -/
theorem mapSet_of_not_mem {β : Type} {s : List (String × β)} {k : String}
    (v : β) (h : k ∉ s.map Prod.fst) : mapSet s k v = s ++ [(k, v)] := by
  unfold mapSet
  rw [if_neg (fun hh => h ((anyKey_iff s k).mp hh))]

/-- Lookup misses exactly on non-resident keys. -/
theorem mapFind?_eq_none_iff {β : Type} (s : List (String × β)) (k : String) :
    mapFind? s k = none ↔ k ∉ s.map Prod.fst := by
  induction s with
  | nil => simp [mapFind?]
  | cons p t ih =>
    rw [mapFind?_cons]
    by_cases h : p.1 = k
    · simp [h]
    · rw [if_neg h, ih]
      constructor
      · intro hh hc
        rw [List.map_cons] at hc
        rcases List.mem_cons.mp hc with he | he
        · exact h he.symm
        · exact hh he
      · intro hh hc
        exact hh (by rw [List.map_cons]; exact List.mem_cons_of_mem _ hc)

/-- Lookup in the in-place-overwrite image, at the overwritten key. -/
theorem mapFind?_overwrite_self {β : Type} (s : List (String × β))
    (k : String) (v : β) (h : k ∈ s.map Prod.fst) :
    mapFind? (s.map (fun p => if p.1 = k then (k, v) else p)) k = some v := by
  induction s with
  | nil => simp at h
  | cons p t ih =>
    rw [List.map_cons]
    by_cases hp : p.1 = k
    · simp [mapFind?_cons, hp]
    · have ht : k ∈ t.map Prod.fst := by
        rw [List.map_cons] at h
        rcases List.mem_cons.mp h with hh | hh
        · exact absurd hh.symm hp
        · exact hh
      simpa [mapFind?_cons, hp] using ih ht

/-- Lookup in the in-place-overwrite image, at any other key. -/
theorem mapFind?_overwrite_other {β : Type} (s : List (String × β))
    (k n : String) (v : β) (hne : n ≠ k) :
    mapFind? (s.map (fun p => if p.1 = k then (k, v) else p)) n =
      mapFind? s n := by
  induction s with
  | nil => rfl
  | cons p t ih =>
    rw [List.map_cons]
    by_cases hp : p.1 = k
    · have h1 : ¬(k = n) := fun hh => hne hh.symm
      simp [mapFind?_cons, hp, h1, ih]
    · by_cases hn : p.1 = n
      · simp [mapFind?_cons, hp, hn, hne]
      · simp [mapFind?_cons, hp, hn, ih]

/-- Lookup after an update-or-insert at the same key. -/
theorem mapFind?_mapSet_self {β : Type} (s : List (String × β)) (k : String)
    (v : β) : mapFind? (mapSet s k v) k = some v := by
  by_cases hmem : k ∈ s.map Prod.fst
  · rw [mapSet_of_mem v hmem]
    exact mapFind?_overwrite_self s k v hmem
  · rw [mapSet_of_not_mem v hmem]
    induction s with
    | nil => simp [mapFind?]
    | cons p t ih =>
      have h : ¬(p.1 = k) := fun hh => hmem (by simp [hh])
      have ht : k ∉ t.map Prod.fst := fun hh => hmem (by simp [hh])
      simpa [mapFind?_cons, h] using ih ht

/-- Lookup at another key is unchanged by an update-or-insert. -/
theorem mapFind?_mapSet_other {β : Type} (s : List (String × β)) (k n : String)
    (v : β) (hne : n ≠ k) : mapFind? (mapSet s k v) n = mapFind? s n := by
  by_cases hmem : k ∈ s.map Prod.fst
  · rw [mapSet_of_mem v hmem]
    exact mapFind?_overwrite_other s k n v hne
  · rw [mapSet_of_not_mem v hmem]
    induction s with
    | nil => simp [mapFind?, Ne.symm hne]
    | cons p t ih =>
      have ht : k ∉ t.map Prod.fst := fun hh => hmem (by simp [hh])
      by_cases hn : p.1 = n
      · simp [mapFind?_cons, hn]
      · simpa [mapFind?_cons, hn] using ih ht

/-- Keys are unchanged by an in-place update. -/
theorem keys_mapSet_of_mem {β : Type} {s : List (String × β)} {k : String}
    (v : β) (h : k ∈ s.map Prod.fst) :
    (mapSet s k v).map Prod.fst = s.map Prod.fst := by
  rw [mapSet_of_mem v h, List.map_map]
  apply List.map_congr_left
  intro p _
  by_cases hp : p.1 = k <;> simp [hp]

/-- Keys gain the fresh key at the end on an insert. -/
theorem keys_mapSet_of_not_mem {β : Type} {s : List (String × β)} {k : String}
    (v : β) (h : k ∉ s.map Prod.fst) :
    (mapSet s k v).map Prod.fst = s.map Prod.fst ++ [k] := by
  rw [mapSet_of_not_mem v h]
  simp

/-- Keys after a delete are the filtered keys. -/
theorem keys_mapDelete {β : Type} (s : List (String × β)) (k : String) :
    (mapDelete s k).map Prod.fst = (s.map Prod.fst).filter (fun n => n != k) := by
  induction s with
  | nil => rfl
  | cons p t ih =>
    by_cases hp : p.1 = k <;> simp [mapDelete, List.filter_cons, hp] at ih ⊢ <;>
      simpa using ih

/-- Deleting a non-resident key is the identity. -/
theorem mapDelete_of_not_mem {β : Type} {s : List (String × β)} {k : String}
    (h : k ∉ s.map Prod.fst) : mapDelete s k = s := by
  induction s with
  | nil => rfl
  | cons p t ih =>
    have hp : (p.1 != k) = true := by
      simp only [bne_iff_ne, ne_eq]
      exact fun hh => h (by simp [hh])
    have ht : k ∉ t.map Prod.fst := fun hh => h (by simp [hh])
    have ih2 := ih ht
    unfold mapDelete at ih2 ⊢
    rw [List.filter_cons, if_pos hp, ih2]

/-- Deleting the head key of a duplicate-free store drops exactly the head. -/
theorem mapDelete_head {β : Type} (p : String × β) (t : List (String × β))
    (h : p.1 ∉ t.map Prod.fst) : mapDelete (p :: t) p.1 = t := by
  have h2 := mapDelete_of_not_mem h
  unfold mapDelete at h2 ⊢
  rw [List.filter_cons, if_neg (by simp), h2]

/-- Deleting a resident key of a duplicate-free store removes one entry. -/
theorem length_mapDelete_of_mem {β : Type} {s : List (String × β)} {k : String}
    (hnd : (s.map Prod.fst).Nodup) (hm : k ∈ s.map Prod.fst) :
    (mapDelete s k).length + 1 = s.length := by
  induction s with
  | nil => simp at hm
  | cons p t ih =>
    rw [List.map_cons] at hnd hm
    by_cases hp : p.1 = k
    · have hkt : p.1 ∉ t.map Prod.fst := (List.nodup_cons.mp hnd).1
      have h1 : mapDelete (p :: t) k = t := hp ▸ mapDelete_head p t hkt
      rw [h1]
      simp
    · have hm2 : k ∈ t.map Prod.fst := by
        rcases List.mem_cons.mp hm with hh | hh
        · exact absurd hh.symm hp
        · exact hh
      have ih2 := ih (List.nodup_cons.mp hnd).2 hm2
      have hb : (p.1 != k) = true := by simp [hp]
      unfold mapDelete at ih2 ⊢
      rw [List.filter_cons, if_pos hb]
      simp only [List.length_cons]
      omega

/-- The deleted key is no longer resident. -/
theorem not_mem_keys_mapDelete {β : Type} (s : List (String × β)) (k : String) :
    k ∉ (mapDelete s k).map Prod.fst := by
  rw [keys_mapDelete]
  simp

/-- Nodup keys survive mapSet. -/
theorem nodup_keys_mapSet {β : Type} {s : List (String × β)} {k : String}
    (v : β) (hnd : (s.map Prod.fst).Nodup) :
    ((mapSet s k v).map Prod.fst).Nodup := by
  by_cases hmem : k ∈ s.map Prod.fst
  · rw [keys_mapSet_of_mem v hmem]
    exact hnd
  · rw [keys_mapSet_of_not_mem v hmem]
    exact List.Nodup.append hnd (List.nodup_singleton k)
      (by simpa [List.disjoint_singleton] using hmem)

/-- Nodup keys survive mapDelete. -/
theorem nodup_keys_mapDelete {β : Type} {s : List (String × β)} (k : String)
    (hnd : (s.map Prod.fst).Nodup) :
    ((mapDelete s k).map Prod.fst).Nodup := by
  rw [keys_mapDelete]
  exact hnd.filter _

/-- Length after an in-place update. -/
theorem length_mapSet_of_mem {β : Type} {s : List (String × β)} {k : String}
    (v : β) (h : k ∈ s.map Prod.fst) : (mapSet s k v).length = s.length := by
  rw [mapSet_of_mem v h]
  simp

/-- Length after a fresh insert. -/
theorem length_mapSet_of_not_mem {β : Type} {s : List (String × β)} {k : String}
    (v : β) (h : k ∉ s.map Prod.fst) :
    (mapSet s k v).length = s.length + 1 := by
  rw [mapSet_of_not_mem v h]
  simp

/-- Cache.set below capacity skips the eviction branch. -/
theorem Cache.set_of_lt {α : Type} (c : Cache α) (now : Nat) (k : String)
    (v : α) (ttl : Nat) (h : c.store.length < c.maxSize) :
    (c.set now k v ttl).store =
      mapSet c.store k { value := v, timestamp := now, ttl := ttl } := by
  unfold Cache.set
  rw [if_neg (by omega)]

/-- Cache.set at capacity with a nonempty first key deletes that key first. -/
theorem Cache.set_of_full {α : Type} (c : Cache α) (now : Nat) (k : String)
    (v : α) (ttl : Nat) (p : String × CacheEntry α)
    (rest : List (String × CacheEntry α)) (hfull : c.maxSize ≤ c.store.length)
    (hstore : c.store = p :: rest) (hne : p.1 ≠ "") :
    (c.set now k v ttl).store =
      mapSet (mapDelete c.store p.1) k
        { value := v, timestamp := now, ttl := ttl } := by
  unfold Cache.set
  rw [if_pos hfull, hstore]
  simp only [List.head?]
  rw [if_neg hne, ← hstore]

/-- Every cache operation preserves the configured maximum size. -/
theorem applyOp_maxSize {α : Type} (c : Cache α) (op : CacheOp α) :
    (applyOp c op).maxSize = c.maxSize := by
  cases op with
  | set now k v ttl => rfl
  | get now k =>
    show ((c.get now k).2).maxSize = c.maxSize
    unfold Cache.get
    rcases h : mapFind? c.store k with _ | e
    · simp [h]
    · by_cases he : now - e.timestamp > e.ttl <;> simp [h, he]
  | del k => rfl
  | clear => rfl
  | prune now => rfl

/-- Characterization of the prune loop: it counts and removes exactly the
entries observed expired. -/
theorem pruneStore_eq {α : Type} (now : Nat) (s : List (String × CacheEntry α)) :
    pruneStore now s =
      (s.countP (fun p => CacheEntry.expired now p.2),
       s.filter (fun p => !(CacheEntry.expired now p.2))) := by
  induction s with
  | nil => rfl
  | cons p t ih =>
    by_cases he : CacheEntry.expired now p.2 <;>
      simp [pruneStore, List.countP_cons, List.filter_cons, he, ih]

/-- Well-formedness is preserved by Cache.set for a nonempty key, provided
the capacity is at least one. -/
theorem WF_set {α : Type} {c : Cache α} (now : Nat) {k : String} (v : α)
    (ttl : Nat) (hwf : c.WF) (hmax : 1 ≤ c.maxSize) (hk : k ≠ "") :
    (c.set now k v ttl).WF := by
  have hms : (c.set now k v ttl).maxSize = c.maxSize := rfl
  obtain ⟨hnd, hne, hlen⟩ := hwf
  by_cases hlt : c.store.length < c.maxSize
  · rw [Cache.WF, Cache.set_of_lt c now k v ttl hlt]
    refine ⟨nodup_keys_mapSet _ hnd, ?_, ?_⟩
    · intro n hn
      by_cases hmem : k ∈ c.store.map Prod.fst
      · rw [keys_mapSet_of_mem _ hmem] at hn
        exact hne n hn
      · rw [keys_mapSet_of_not_mem _ hmem] at hn
        rcases List.mem_append.mp hn with hh | hh
        · exact hne n hh
        · simpa using List.mem_singleton.mp hh ▸ hk
    · by_cases hmem : k ∈ c.store.map Prod.fst
      · rw [length_mapSet_of_mem _ hmem, hms]
        omega
      · rw [length_mapSet_of_not_mem _ hmem, hms]
        omega
  · have hfull : c.maxSize ≤ c.store.length := by omega
    have hlen1 : 1 ≤ c.store.length := by omega
    rcases hs : c.store with _ | ⟨p, rest⟩
    · rw [hs] at hlen1
      simp at hlen1
    · have hpne : p.1 ≠ "" := hne p.1 (by rw [hs]; simp)
      rw [Cache.WF, Cache.set_of_full c now k v ttl p rest hfull hs hpne]
      have hdnd : ((mapDelete c.store p.1).map Prod.fst).Nodup :=
        nodup_keys_mapDelete _ hnd
      have hdmem : p.1 ∈ c.store.map Prod.fst := by rw [hs]; simp
      have hdlen : (mapDelete c.store p.1).length + 1 = c.store.length :=
        length_mapDelete_of_mem hnd hdmem
      refine ⟨nodup_keys_mapSet _ hdnd, ?_, ?_⟩
      · intro n hn
        by_cases hmem : k ∈ (mapDelete c.store p.1).map Prod.fst
        · rw [keys_mapSet_of_mem _ hmem] at hn
          rw [keys_mapDelete] at hn
          exact hne n (List.mem_of_mem_filter hn)
        · rw [keys_mapSet_of_not_mem _ hmem] at hn
          rcases List.mem_append.mp hn with hh | hh
          · rw [keys_mapDelete] at hh
            exact hne n (List.mem_of_mem_filter hh)
          · simpa using List.mem_singleton.mp hh ▸ hk
      · by_cases hmem : k ∈ (mapDelete c.store p.1).map Prod.fst
        · rw [length_mapSet_of_mem _ hmem, hms]
          omega
        · rw [length_mapSet_of_not_mem _ hmem, hms]
          omega

/-- Well-formedness is preserved by every cache operation whose written key
is nonempty, provided the capacity is at least one. -/
theorem WF_applyOp {α : Type} {c : Cache α} (op : CacheOp α) (hwf : c.WF)
    (hmax : 1 ≤ c.maxSize) (hop : op.setKeyNe) : (applyOp c op).WF := by
  obtain ⟨hnd, hne, hlen⟩ := hwf
  cases op with
  | set now k v ttl => exact WF_set now v ttl ⟨hnd, hne, hlen⟩ hmax hop
  | get now k =>
    show ((c.get now k).2).WF
    unfold Cache.get
    rcases h : mapFind? c.store k with _ | e
    · exact ⟨hnd, hne, hlen⟩
    · by_cases he : now - e.timestamp > e.ttl
      · simp only [he, if_pos]
        refine ⟨nodup_keys_mapDelete _ hnd, ?_, ?_⟩
        · intro n hn
          rw [keys_mapDelete] at hn
          exact hne n (List.mem_of_mem_filter hn)
        · show (mapDelete c.store k).length ≤ c.maxSize
          have : (mapDelete c.store k).length ≤ c.store.length := by
            unfold mapDelete
            exact List.length_filter_le _ _
          omega
      · simp only [he, if_neg, Bool.not_eq_true]
        exact ⟨hnd, hne, hlen⟩
  | del k =>
    show ({ c with store := mapDelete c.store k } : Cache α).WF
    refine ⟨nodup_keys_mapDelete _ hnd, ?_, ?_⟩
    · intro n hn
      rw [keys_mapDelete] at hn
      exact hne n (List.mem_of_mem_filter hn)
    · show (mapDelete c.store k).length ≤ c.maxSize
      have : (mapDelete c.store k).length ≤ c.store.length := by
        unfold mapDelete
        exact List.length_filter_le _ _
      omega
  | clear =>
    refine ⟨by simp [applyOp, Cache.clear], ?_, by simp [applyOp, Cache.clear]⟩
    intro n hn
    simp [applyOp, Cache.clear] at hn
  | prune now =>
    show ((c.prune now).2).WF
    unfold Cache.prune
    rw [pruneStore_eq]
    have hsub : ∀ q ∈ c.store.filter (fun p => !(CacheEntry.expired now p.2)),
        q ∈ c.store := fun q hq => List.mem_of_mem_filter hq
    refine ⟨?_, ?_, ?_⟩
    · have : (c.store.filter (fun p => !(CacheEntry.expired now p.2))).map
          Prod.fst |>.Sublist (c.store.map Prod.fst) :=
        (List.filter_sublist _).map _
      exact hnd.sublist this
    · intro n hn
      rcases List.mem_map.mp hn with ⟨q, hq, hqn⟩
      exact hqn ▸ hne q.1 (List.mem_map_of_mem _ (hsub q hq))
    · show (c.store.filter (fun p => !(CacheEntry.expired now p.2))).length ≤
        c.maxSize
      have : (c.store.filter (fun p => !(CacheEntry.expired now p.2))).length ≤
          c.store.length := List.length_filter_le _ _
      omega

/-- Present keys are exactly those with a successful lookup. -/
theorem mem_keys_of_mapFind? {β : Type} {s : List (String × β)} {k : String}
    {e : β} (h : mapFind? s k = some e) : k ∈ s.map Prod.fst := by
  by_contra hc
  rw [(mapFind?_eq_none_iff s k).mpr hc] at h
  exact Option.noConfusion h

/-- Cache.set on a full duplicate-free cache with a fresh nonempty key drops
the insertion-oldest key and appends the new one. -/
theorem set_full_fresh_keys {α : Type} (c : Cache α) (now : Nat) (k : String)
    (v : α) (ttl : Nat) (hwf : c.WF) (hfullEq : c.store.length = c.maxSize)
    (hmax : 1 ≤ c.maxSize) (hfresh : k ∉ residentKeys c) :
    residentKeys (c.set now k v ttl) = (residentKeys c).tail ++ [k] := by
  obtain ⟨hnd, hne, _⟩ := hwf
  rcases hs : c.store with _ | ⟨p, rest⟩
  · rw [hs] at hfullEq
    simp at hfullEq
    omega
  · have hpne : p.1 ≠ "" := hne p.1 (by rw [hs]; simp)
    have hrw := Cache.set_of_full c now k v ttl p rest (by omega) hs hpne
    have hptail : p.1 ∉ rest.map Prod.fst := by
      rw [hs, List.map_cons] at hnd
      exact (List.nodup_cons.mp hnd).1
    have hdel : mapDelete c.store p.1 = rest := by
      rw [hs]
      exact mapDelete_head p rest hptail
    have hkfresh : k ∉ rest.map Prod.fst := by
      intro hh
      exact hfresh (by rw [residentKeys, hs, List.map_cons]; exact List.mem_cons_of_mem _ hh)
    rw [residentKeys, hrw, hdel,
      keys_mapSet_of_not_mem _ hkfresh, residentKeys, hs]
    simp

/-- Cache.set below capacity on a resident key overwrites in place: the keys
are unchanged and the entry is replaced. -/
theorem set_below_resident {α : Type} (c : Cache α) (now : Nat) (k : String)
    (v : α) (ttl : Nat) (hlt : c.store.length < c.maxSize)
    (hmem : k ∈ residentKeys c) :
    residentKeys (c.set now k v ttl) = residentKeys c ∧
      mapFind? (c.set now k v ttl).store k =
        some { value := v, timestamp := now, ttl := ttl } := by
  constructor
  · rw [residentKeys, Cache.set_of_lt c now k v ttl hlt,
      keys_mapSet_of_mem _ hmem]
    rfl
  · exact mapFind?_mapSet_self _ _ _

/-- Cache.set at capacity evicts the insertion-oldest key even when the
written key is resident, as long as the two differ. -/
theorem set_full_evicts_head {α : Type} (c : Cache α) (now : Nat) (k : String)
    (v : α) (ttl : Nat) (h0 : String) (hwf : c.WF)
    (hfullEq : c.store.length = c.maxSize) (hmax : 1 ≤ c.maxSize)
    (hhead : (residentKeys c).head? = some h0) (hne0 : h0 ≠ k) :
    h0 ∉ residentKeys (c.set now k v ttl) := by
  obtain ⟨hnd, hne, _⟩ := hwf
  rcases hs : c.store with _ | ⟨p, rest⟩
  · rw [hs] at hfullEq
    simp at hfullEq
    omega
  · have hp0 : p.1 = h0 := by
      rw [residentKeys, hs] at hhead
      simpa using hhead
    have hpne : p.1 ≠ "" := hne p.1 (by rw [hs]; simp)
    have hrw := Cache.set_of_full c now k v ttl p rest (by omega) hs hpne
    have hptail : p.1 ∉ rest.map Prod.fst := by
      rw [hs, List.map_cons] at hnd
      exact (List.nodup_cons.mp hnd).1
    have hdel : mapDelete c.store p.1 = rest := by
      rw [hs]
      exact mapDelete_head p rest hptail
    rw [residentKeys, hrw, hdel]
    intro hmem
    by_cases hkr : k ∈ rest.map Prod.fst
    · rw [keys_mapSet_of_mem _ hkr] at hmem
      exact hptail (hp0 ▸ hmem)
    · rw [keys_mapSet_of_not_mem _ hkr] at hmem
      rcases List.mem_append.mp hmem with hh | hh
      · exact hptail (hp0 ▸ hh)
      · exact hne0 (List.mem_singleton.mp hh)

/-- Sequential insertion of fresh distinct keys that fit below the capacity
appends them in order. -/
theorem insertSeq_fresh {α : Type} (now : Nat) (v : α) (ttl : Nat) :
    ∀ (ks : List String) (c : Cache α), ks.Nodup →
      (∀ k ∈ ks, k ∉ c.store.map Prod.fst) →
      c.store.length + ks.length ≤ c.maxSize →
      (insertSeq c now v ttl ks).store =
        c.store ++ ks.map (fun k => (k, { value := v, timestamp := now, ttl := ttl })) := by
  intro ks
  induction ks with
  | nil => intro c _ _ _; simp [insertSeq]
  | cons k rest ih =>
    intro c hnd hfresh hlen
    have hkc : k ∉ c.store.map Prod.fst := hfresh k (List.mem_cons_self k rest)
    have hlt : c.store.length < c.maxSize := by
      have := hlen
      simp [List.length_cons] at this
      omega
    have hstep : (c.set now k v ttl).store =
        c.store ++ [(k, { value := v, timestamp := now, ttl := ttl })] := by
      rw [Cache.set_of_lt c now k v ttl hlt, mapSet_of_not_mem _ hkc]
    have hrest := ih (c.set now k v ttl)
      (List.nodup_cons.mp hnd).2
      (by
        intro n hn
        rw [hstep]
        simp only [List.map_append, List.map_cons]
        intro hmem
        rcases List.mem_append.mp hmem with hh | hh
        · exact hfresh n (List.mem_cons_of_mem _ hn) hh
        · have : n = k := by simpa using hh
          exact (List.nodup_cons.mp hnd).1 (this ▸ hn))
      (by
        have hms : (c.set now k v ttl).maxSize = c.maxSize := rfl
        rw [hstep, hms]
        simp only [List.length_append, List.length_cons, List.length_nil]
        simp [List.length_cons] at hlen
        omega)
    show (insertSeq (c.set now k v ttl) now v ttl rest).store = _
    rw [hrest, hstep]
    simp

/-- A set entry is read back at the same instant. -/
theorem get_after_set {α : Type} (c : Cache α) (now : Nat) (k : String)
    (v : α) (ttl : Nat) : ((c.set now k v ttl).get now k).1 = some v := by
  have h1 : mapFind? (c.set now k v ttl).store k =
      some { value := v, timestamp := now, ttl := ttl } :=
    mapFind?_mapSet_self _ _ _
  unfold Cache.get
  rw [h1]
  simp

/-- Reading an expired resident entry returns absent and removes it, shrinking
a duplicate-free store by exactly one. -/
theorem get_expired {α : Type} (c : Cache α) (now2 : Nat) (k : String)
    (e : CacheEntry α) (hfind : mapFind? c.store k = some e)
    (hexp : now2 - e.timestamp > e.ttl)
    (hnd : (c.store.map Prod.fst).Nodup) :
    (c.get now2 k).1 = none ∧ (c.get now2 k).2.size + 1 = c.size ∧
      k ∉ residentKeys ((c.get now2 k).2) := by
  have hmem : k ∈ c.store.map Prod.fst := mem_keys_of_mapFind? hfind
  unfold Cache.get
  simp only [hfind]
  rw [if_pos hexp]
  refine ⟨rfl, ?_, ?_⟩
  · show (mapDelete c.store k).length + 1 = c.store.length
    exact length_mapDelete_of_mem hnd hmem
  · exact not_mem_keys_mapDelete c.store k

/-- Well-formedness is preserved by a sequence of cache operations. -/
theorem WF_applyOps {α : Type} (c : Cache α) (ops : List (CacheOp α))
    (hwf : c.WF) (hmax : 1 ≤ c.maxSize) (hops : ∀ op ∈ ops, op.setKeyNe) :
    (applyOps c ops).WF ∧ (applyOps c ops).maxSize = c.maxSize := by
  induction ops generalizing c with
  | nil => exact ⟨hwf, rfl⟩
  | cons op rest ih =>
    have h1 : (applyOp c op).WF :=
      WF_applyOp op hwf hmax (hops op (List.mem_cons_self op rest))
    have h2 : (applyOp c op).maxSize = c.maxSize := applyOp_maxSize c op
    have h3 := ih (applyOp c op) h1 (h2 ▸ hmax)
      (fun o ho => hops o (List.mem_cons_of_mem op ho))
    exact ⟨h3.1, h3.2.trans h2⟩

/-- Path lemma: a present nonempty parameter, a valid model, a successful
transform and a cache miss (or no caching) reach the fetch stage. -/
theorem bindBody_fetch {V R : Type} (vstr : V → String) (adapter : Adapter V R)
    (cache : Cache R) (now : Nat) (req : Req R) (paramName : String)
    (model : ModelDesc) (options : BindOptions V R) (pv : String) (value : V)
    (hpv : mapFind? req.params paramName = some pv) (hne : pv ≠ "")
    (hvalid : adapter.isValidModel model = true)
    (htrans : transformedValue adapter model options
      (resolveKey adapter model options) pv = .ok value)
    (hmiss : CacheOpt.truthy options.cache = true →
      (cache.get now (getCacheKey vstr model (resolveKey adapter model options)
        value options)).1 = none) :
    bindBody vstr adapter cache now req paramName model options =
      fetchAndFinish vstr adapter
        (if CacheOpt.truthy options.cache then
          (cache.get now (getCacheKey vstr model
            (resolveKey adapter model options) value options)).2
        else cache)
        now req paramName model options (resolveKey adapter model options)
        value
        (getCacheKey vstr model (resolveKey adapter model options) value
          options) := by
  unfold bindBody
  simp only [hpv]
  rw [if_neg hne]
  rw [if_neg (by rw [hvalid]; simp)]
  simp only [htrans]
  by_cases ht : CacheOpt.truthy options.cache
  · simp only [ht, if_true]
    have hm := hmiss ht
    rcases hg : cache.get now (getCacheKey vstr model
        (resolveKey adapter model options) value options) with ⟨o, c1⟩
    rw [hg] at hm
    simp only at hm
    subst hm
    simp [hg]
  · simp only [ht, Bool.false_eq_true, if_false]

/-- Path lemma: with caching requested and a live cached entry, bindBody
returns the cached hit without reaching the fetch stage. -/
theorem bindBody_hit {V R : Type} (vstr : V → String) (adapter : Adapter V R)
    (cache : Cache R) (now : Nat) (req : Req R) (paramName : String)
    (model : ModelDesc) (options : BindOptions V R) (pv : String) (value : V)
    (cached : R)
    (hpv : mapFind? req.params paramName = some pv) (hne : pv ≠ "")
    (hvalid : adapter.isValidModel model = true)
    (htrans : transformedValue adapter model options
      (resolveKey adapter model options) pv = .ok value)
    (ht : CacheOpt.truthy options.cache = true)
    (hhit : (cache.get now (getCacheKey vstr model
      (resolveKey adapter model options) value options)).1 = some cached) :
    bindBody vstr adapter cache now req paramName model options =
      .ok ({ success := true, model := some cached, error := none,
             fromCache := some true },
        attachToRequest req (attachName options paramName) (some cached),
        (cache.get now (getCacheKey vstr model
          (resolveKey adapter model options) value options)).2) := by
  unfold bindBody
  simp only [hpv]
  rw [if_neg hne]
  rw [if_neg (by rw [hvalid]; simp)]
  simp only [htrans, ht, if_true]
  rcases hg : cache.get now (getCacheKey vstr model
      (resolveKey adapter model options) value options) with ⟨o, c1⟩
  rw [hg] at hhit
  simp only at hhit
  subst hhit
  simp [hg]

/-- The fetch stage only succeeds with a successful result flag. -/
theorem fetchAndFinish_ok_success {V R : Type} (vstr : V → String)
    (adapter : Adapter V R) (cache : Cache R) (now : Nat) (req : Req R)
    (paramName : String) (model : ModelDesc) (options : BindOptions V R)
    (key : String) (value : V) (cacheKey : String)
    (out : BindingResult R × Req R × Cache R)
    (h : fetchAndFinish vstr adapter cache now req paramName model options key
      value cacheKey = .ok out) : out.1.success = true := by
  unfold fetchAndFinish at h
  split at h
  · exact absurd h (by simp)
  · split at h
    · cases h
      rfl
    · exact absurd h (by simp)
  · split at h
    · exact absurd h (by simp)
    · cases h
      rfl

/-- The whole try-block body only succeeds with a successful result flag. -/
theorem bindBody_ok_success {V R : Type} (vstr : V → String)
    (adapter : Adapter V R) (cache : Cache R) (now : Nat) (req : Req R)
    (paramName : String) (model : ModelDesc) (options : BindOptions V R)
    (out : BindingResult R × Req R × Cache R)
    (h : bindBody vstr adapter cache now req paramName model options = .ok out) :
    out.1.success = true := by
  unfold bindBody missingParamCase at h
  repeat' split at h
  all_goals try (cases h; rfl)
  all_goals try (exact absurd h (by simp))
  all_goals exact fetchAndFinish_ok_success _ _ _ _ _ _ _ _ _ _ _ _ h

/-- A thrown body error is normalized by the catch block into a failed result
carrying exactly that error. -/
theorem bind_of_body_error {V R : Type} (vstr : V → String)
    (adapter : Adapter V R) (cache : Cache R) (now : Nat) (req : Req R)
    (paramName : String) (model : ModelDesc) (options : BindOptions V R)
    (e : Err) (c1 : Cache R)
    (h : bindBody vstr adapter cache now req paramName model options =
      .error (e, c1)) :
    bind vstr adapter cache now req paramName model options =
      ({ success := false, model := none, error := some e, fromCache := none },
        req, c1) := by
  unfold bind
  rw [h]

/-- A successful body is returned unchanged by the catch block. -/
theorem bind_of_body_ok {V R : Type} (vstr : V → String)
    (adapter : Adapter V R) (cache : Cache R) (now : Nat) (req : Req R)
    (paramName : String) (model : ModelDesc) (options : BindOptions V R)
    (out : BindingResult R × Req R × Cache R)
    (h : bindBody vstr adapter cache now req paramName model options = .ok out) :
    bind vstr adapter cache now req paramName model options = out := by
  unfold bind
  rw [h]

/-- Every successful body outcome attaches exactly at the attach name. -/
theorem bindBody_ok_req {V R : Type} (vstr : V → String)
    (adapter : Adapter V R) (cache : Cache R) (now : Nat) (req : Req R)
    (paramName : String) (model : ModelDesc) (options : BindOptions V R)
    (out : BindingResult R × Req R × Cache R)
    (h : bindBody vstr adapter cache now req paramName model options = .ok out) :
    ∃ v, out.2.1 = attachToRequest req (attachName options paramName) v := by
  unfold bindBody missingParamCase fetchAndFinish at h
  repeat' split at h
  all_goals try (cases h; exact ⟨_, rfl⟩)
  all_goals exact absurd h (by simp)

/-- ModelBinder.bind never touches request properties other than its own
attach name. -/
theorem bind_attached_other {V R : Type} (vstr : V → String)
    (adapter : Adapter V R) (cache : Cache R) (now : Nat) (req : Req R)
    (paramName : String) (model : ModelDesc) (options : BindOptions V R)
    (n : String) (hn : n ≠ attachName options paramName) :
    mapFind? ((bind vstr adapter cache now req paramName model
      options).2.1).attached n = mapFind? req.attached n := by
  rcases hb : bindBody vstr adapter cache now req paramName model options with
    ⟨e, c1⟩ | out
  · rw [bind_of_body_error _ _ _ _ _ _ _ _ _ _ hb]
  · rw [bind_of_body_ok _ _ _ _ _ _ _ _ _ hb]
    obtain ⟨v, hv⟩ :=
      bindBody_ok_req vstr adapter cache now req paramName model options out hb
    rw [hv]
    exact mapFind?_mapSet_other _ _ _ _ hn

/-- Request component of a middleware outcome. -/
theorem mwOutcome_req {R : Type} (cache : Cache R) (req1 : Req R)
    (exc : Except Err (BindingResult R × Req R × Cache R)) :
    (mwOutcome cache req1 exc).2.1 =
      match exc with
      | .error _ => req1
      | .ok out => out.2.1 := by
  unfold mwOutcome
  rcases exc with e | ⟨result, req2, cache2⟩
  · rfl
  · by_cases hs : result.success = true <;> simp [hs]

/-- One bindModels iteration never touches request properties other than its
own attach name. -/
theorem bindModelsStep_attached_other {V R : Type} (vstr : V → String)
    (adapterQ : Option (Adapter V R)) (now : Nat) (p : String)
    (config : BindingConfig V R) (req : Req R) (cache : Cache R) (n : String)
    (hn : n ≠ entryAttachName (p, config)) :
    mapFind? ((bindModelsStep vstr adapterQ now p config req
      cache).2.1).attached n = mapFind? req.attached n := by
  unfold bindModelsStep
  by_cases hskip : ((mapFind? req.params p).isNone = true ∧
    configOptional config = true)
  · rw [if_pos hskip]
  · rw [if_neg hskip]
    have hatt : ∀ (q : Req R), q.attached = req.attached →
        mapFind? ((mwOutcome cache q (bindTop vstr adapterQ cache now q p
          config.model (configOptions config))).2.1).attached n =
        mapFind? req.attached n := by
      intro q hq
      rcases adapterQ with _ | adapter
      · show mapFind? q.attached n = _
        rw [hq]
      · rw [mwOutcome_req]
        show mapFind? ((bind vstr adapter cache now q p config.model
          (configOptions config)).2.1).attached n = _
        rw [bind_attached_other vstr adapter cache now q p config.model
          (configOptions config) n hn, hq]
    exact hatt _ rfl

/-- The bindModels loop never touches request properties outside the attach
names of its entries. -/
theorem bindModelsRun_attached_other {V R : Type} (vstr : V → String)
    (adapterQ : Option (Adapter V R)) (now : Nat) :
    ∀ (l : List (String × BindingConfig V R)) (req : Req R) (cache : Cache R)
      (n : String), (∀ pc ∈ l, n ≠ entryAttachName pc) →
      mapFind? ((bindModelsRun vstr adapterQ now l req cache).2.1).attached n =
        mapFind? req.attached n := by
  intro l
  induction l with
  | nil => intro req cache n _; rfl
  | cons pc rest ih =>
    intro req cache n hn
    rcases pc with ⟨p, config⟩
    show mapFind? ((match bindModelsStep vstr adapterQ now p config req cache
      with
      | (some e, req1, cache1) => (some e, req1, cache1)
      | (none, req1, cache1) =>
        bindModelsRun vstr adapterQ now rest req1 cache1).2.1).attached n = _
    have hstep := bindModelsStep_attached_other vstr adapterQ now p config req
      cache n (hn (p, config) (List.mem_cons_self _ _))
    rcases hs : bindModelsStep vstr adapterQ now p config req cache with
      ⟨e?, req1, cache1⟩
    rw [hs] at hstep
    rcases e? with _ | e
    · simp only
      rw [ih req1 cache1 n (fun pc hpc => hn pc (List.mem_cons_of_mem _ hpc))]
      exact hstep
    · exact hstep

/-- The bindModels loop over an appended configuration list runs the first
part and continues with the second exactly when the first produced no error. -/
theorem bindModelsRun_append {V R : Type} (vstr : V → String)
    (adapterQ : Option (Adapter V R)) (now : Nat) :
    ∀ (l1 l2 : List (String × BindingConfig V R)) (req : Req R)
      (cache : Cache R),
      bindModelsRun vstr adapterQ now (l1 ++ l2) req cache =
        match bindModelsRun vstr adapterQ now l1 req cache with
        | (none, r, c) => bindModelsRun vstr adapterQ now l2 r c
        | (some e, r, c) => (some e, r, c) := by
  intro l1
  induction l1 with
  | nil => intro l2 req cache; rfl
  | cons pc rest ih =>
    intro l2 req cache
    rcases pc with ⟨p, config⟩
    show (match bindModelsStep vstr adapterQ now p config req cache with
      | (some e, req1, cache1) => (some e, req1, cache1)
      | (none, req1, cache1) =>
        bindModelsRun vstr adapterQ now (rest ++ l2) req1 cache1) = _
    rcases hs : bindModelsStep vstr adapterQ now p config req cache with
      ⟨e?, req1, cache1⟩
    rcases e? with _ | e
    · simp only
      rw [ih l2 req1 cache1]
      show _ = (match (match bindModelsStep vstr adapterQ now p config req
          cache with
        | (some e, req2, cache2) => (some e, req2, cache2)
        | (none, req2, cache2) =>
          bindModelsRun vstr adapterQ now rest req2 cache2) with
        | (none, r, c) => bindModelsRun vstr adapterQ now l2 r c
        | (some e, r, c) => (some e, r, c))
      rw [hs]
    · show (some e, req1, cache1) = (match (match bindModelsStep vstr adapterQ
          now p config req cache with
        | (some e, req2, cache2) => (some e, req2, cache2)
        | (none, req2, cache2) =>
          bindModelsRun vstr adapterQ now rest req2 cache2) with
        | (none, r, c) => bindModelsRun vstr adapterQ now l2 r c
        | (some e, r, c) => (some e, r, c))
      rw [hs]

/-- Every sanitized value fits within the maximum parameter length. -/
theorem sanitize_length_le (v : Option String) :
    (sanitizeParamValue v).length ≤ MAX_PARAM_VALUE_LENGTH := by
  rcases v with _ | s
  · simp [sanitizeParamValue, MAX_PARAM_VALUE_LENGTH]
  · simp only [sanitizeParamValue]
    by_cases h0 : s = ""
    · simp [h0, MAX_PARAM_VALUE_LENGTH]
    · rw [if_neg h0]
      by_cases hl : s.length > MAX_PARAM_VALUE_LENGTH
      · rw [if_pos hl, List.length_asString, List.length_take]
        exact min_le_left _ _
      · rw [if_neg hl]
        omega

/-- A short value passes sanitization unchanged. -/
theorem sanitize_short (s : String) (h0 : s ≠ "")
    (hl : s.length ≤ MAX_PARAM_VALUE_LENGTH) :
    sanitizeParamValue (some s) = s := by
  simp only [sanitizeParamValue]
  rw [if_neg h0, if_neg (by omega)]

/-- A long value is truncated to its first MAX_PARAM_VALUE_LENGTH characters. -/
theorem sanitize_long (s : String) (hl : s.length > MAX_PARAM_VALUE_LENGTH) :
    sanitizeParamValue (some s) =
      (s.toList.take MAX_PARAM_VALUE_LENGTH).asString := by
  have h0 : s ≠ "" := by
    intro hh
    rw [hh] at hl
    simp [MAX_PARAM_VALUE_LENGTH] at hl
  simp only [sanitizeParamValue]
  rw [if_neg h0, if_pos hl]

/-- The parameter value the orchestrator reads from a sanitized request is the
sanitized value. -/
theorem sanitizeReq_param {R : Type} (req : Req R) (p : String) :
    mapFind? (sanitizeReq req p).params p =
      some (sanitizeParamValue (mapFind? req.params p)) :=
  mapFind?_mapSet_self _ _ _

/-- When the parameter is not skipped, the bindModel handler runs the binder
on the sanitized request. -/
theorem bindModelRun_not_skip {V R : Type} (vstr : V → String)
    (adapterQ : Option (Adapter V R)) (now : Nat) (paramName : String)
    (model : ModelDesc) (options : BindOptions V R) (req : Req R)
    (cache : Cache R)
    (hns : ¬((mapFind? req.params paramName).isNone = true ∧
      options.optional = true)) :
    bindModelRun vstr adapterQ now paramName model options req cache =
      mwOutcome cache (sanitizeReq req paramName)
        (bindTop vstr adapterQ cache now (sanitizeReq req paramName) paramName
          model options) := by
  unfold bindModelRun
  rw [if_neg hns]
  rfl

/-- When the parameter is not skipped, a bindModels iteration runs the binder
on the sanitized request. -/
theorem bindModelsStep_not_skip {V R : Type} (vstr : V → String)
    (adapterQ : Option (Adapter V R)) (now : Nat) (paramName : String)
    (config : BindingConfig V R) (req : Req R) (cache : Cache R)
    (hns : ¬((mapFind? req.params paramName).isNone = true ∧
      configOptional config = true)) :
    bindModelsStep vstr adapterQ now paramName config req cache =
      mwOutcome cache (sanitizeReq req paramName)
        (bindTop vstr adapterQ cache now (sanitizeReq req paramName) paramName
          config.model (configOptions config)) := by
  unfold bindModelsStep
  rw [if_neg hns]
  rfl

/-- An absent optional parameter is skipped by the bindModels loop before any
sanitization or binding. -/
theorem bindModelsRun_skip {V R : Type} (vstr : V → String)
    (adapterQ : Option (Adapter V R)) (now : Nat) (p : String)
    (config : BindingConfig V R) (rest : List (String × BindingConfig V R))
    (req : Req R) (cache : Cache R) (hmiss : mapFind? req.params p = none)
    (hopt : configOptional config = true) :
    bindModelsRun vstr adapterQ now ((p, config) :: rest) req cache =
      bindModelsRun vstr adapterQ now rest req cache := by
  show (match bindModelsStep vstr adapterQ now p config req cache with
    | (some e, req1, cache1) => (some e, req1, cache1)
    | (none, req1, cache1) =>
      bindModelsRun vstr adapterQ now rest req1 cache1) = _
  unfold bindModelsStep
  rw [if_pos ⟨by rw [hmiss]; rfl, hopt⟩]

/-- A missing, null or empty parameter value routes to the missing-parameter
branch regardless of adapter and cache. -/
theorem bindBody_missing {V R : Type} (vstr : V → String)
    (adapter : Adapter V R) (cache : Cache R) (now : Nat) (req : Req R)
    (paramName : String) (model : ModelDesc) (options : BindOptions V R)
    (hmiss : mapFind? req.params paramName = none ∨
      mapFind? req.params paramName = some "") :
    bindBody vstr adapter cache now req paramName model options =
      missingParamCase cache req paramName options := by
  unfold bindBody
  rcases hmiss with h | h <;> simp [h]

/-- C7: if the raw route-parameter value is missing, null or empty then, with
`optional`, bind succeeds with an absent bound value attached, and without
`optional` it fails with the missing-parameter error; either way this happens
before the model is validated or the adapter is queried, so the outcome does
not depend on the adapter at all and the cache is untouched. -/
theorem c7_missing_param {V R : Type} (vstr : V → String)
    (adapter : Adapter V R) (cache : Cache R) (now : Nat) (req : Req R)
    (paramName : String) (model : ModelDesc) (options : BindOptions V R)
    (hmiss : mapFind? req.params paramName = none ∨
      mapFind? req.params paramName = some "") :
    (options.optional = true →
      bind vstr adapter cache now req paramName model options =
        ({ success := true, model := none, error := none, fromCache := none },
          attachToRequest req (attachName options paramName) none, cache)) ∧
    (options.optional = false →
      bind vstr adapter cache now req paramName model options =
        ({ success := false, model := none,
           error := some (Err.binding
             ("Parameter \x27" ++ paramName ++
               "\x27 is required but was not provided") "Missing parameter"),
           fromCache := none }, req, cache)) ∧
    (∀ adapter2 : Adapter V R,
      bind vstr adapter2 cache now req paramName model options =
        bind vstr adapter cache now req paramName model options) := by
  have hb : ∀ (a : Adapter V R),
      bindBody vstr a cache now req paramName model options =
        missingParamCase cache req paramName options :=
    fun a => bindBody_missing vstr a cache now req paramName model options hmiss
  refine ⟨?_, ?_, ?_⟩
  · intro hopt
    apply bind_of_body_ok
    rw [hb adapter]
    unfold missingParamCase
    rw [if_pos hopt]
  · intro hopt
    apply bind_of_body_error
    rw [hb adapter]
    unfold missingParamCase
    rw [if_neg (by rw [hopt]; simp)]
  · intro a2
    unfold bind
    rw [hb adapter, hb a2]

/-- Witness for C7: a request without the parameter fails with the
missing-parameter error under the default options, and the adapter is
irrelevant. -/
theorem c7_missing_param_witness :
    bind idStr adapterMiss cache0 0 reqNoParams "user" (.str "User")
      emptyOptions =
      ({ success := false, model := none,
         error := some (Err.binding
           "Parameter \x27user\x27 is required but was not provided"
           "Missing parameter"), fromCache := none }, reqNoParams, cache0) ∧
    bind idStr adapterThrow cache0 0 reqNoParams "user" (.str "User")
      emptyOptions =
      bind idStr adapterMiss cache0 0 reqNoParams "user" (.str "User")
        emptyOptions :=
  ⟨(c7_missing_param idStr adapterMiss cache0 0 reqNoParams "user"
      (.str "User") emptyOptions (Or.inl rfl)).2.1 rfl,
   (c7_missing_param idStr adapterMiss cache0 0 reqNoParams "user"
      (.str "User") emptyOptions (Or.inl rfl)).2.2 adapterThrow⟩

/-- C4: with an adapter configured, no exception escapes bind — every thrown
error at any stage of the body is caught and returned as a failed result
carrying exactly that error, every failed result carries an error, and the
only call that can throw past bind is the one made with no adapter
configured. -/
theorem c4_no_escape {V R : Type} (vstr : V → String) (cache : Cache R)
    (now : Nat) (req : Req R) (paramName : String) (model : ModelDesc)
    (options : BindOptions V R) :
    (∀ adapterQ : Option (Adapter V R),
      (∃ e, bindTop vstr adapterQ cache now req paramName model options =
        .error e) ↔ adapterQ = none) ∧
    (∀ (adapter : Adapter V R) (e : Err) (c1 : Cache R),
      bindBody vstr adapter cache now req paramName model options =
        .error (e, c1) →
      bind vstr adapter cache now req paramName model options =
        ({ success := false, model := none, error := some e,
           fromCache := none }, req, c1)) ∧
    (∀ adapter : Adapter V R,
      (bind vstr adapter cache now req paramName model options).1.success =
        false →
      ∃ e, (bind vstr adapter cache now req paramName model
        options).1.error = some e) := by
  refine ⟨?_, ?_, ?_⟩
  · intro adapterQ
    constructor
    · rintro ⟨e, he⟩
      rcases adapterQ with _ | a
      · rfl
      · exact absurd he (by unfold bindTop; simp)
    · rintro rfl
      exact ⟨_, rfl⟩
  · intro adapter e c1 h
    exact bind_of_body_error vstr adapter cache now req paramName model
      options e c1 h
  · intro adapter hfail
    rcases hb : bindBody vstr adapter cache now req paramName model options
      with ⟨e, c1⟩ | out
    · rw [bind_of_body_error vstr adapter cache now req paramName model
        options e c1 hb]
      exact ⟨e, rfl⟩
    · rw [bind_of_body_ok vstr adapter cache now req paramName model
        options out hb] at hfail
      rw [bindBody_ok_success vstr adapter cache now req paramName model
        options out hb] at hfail
      exact absurd hfail (by simp)

/-- Witness for C4: an adapter whose lookup throws a database error yields a
failed result carrying that error, with nothing escaping. -/
theorem c4_no_escape_witness :
    bind idStr adapterThrow cache0 0 reqUser1 "user" (.str "User")
      emptyOptions =
      ({ success := false, model := none,
         error := some (.custom "Database error"), fromCache := none },
        reqUser1, cache0) ∧
    ((none : Option (Adapter String Nat)) = none) :=
  ⟨(c4_no_escape idStr cache0 0 reqUser1 "user" (.str "User")
      emptyOptions).2.1 adapterThrow (.custom "Database error") cache0 rfl,
   ((c4_no_escape idStr cache0 0 reqUser1 "user" (.str "User")
      emptyOptions).1 none).mp
     ⟨Err.adapterNotSet
        "No adapter set. Call ModelBinder.setAdapter() before using model binding.",
      rfl⟩⟩

/-- C1 counterexample: with both an errorMessage override and an onNotFound
error object supplied, bind returns the errorMessage-based not-found error,
not the custom onNotFound object, refuting the claimed precedence in which a
custom error object is used first. -/
theorem c1_counterexample :
    (bind idStr adapterMiss cache0 0 reqUser999 "user" (.str "User")
      c1opts).1.error =
      some (.modelNotFound "user" "999" "User" (some "boom")) ∧
    (bind idStr adapterMiss cache0 0 reqUser999 "user" (.str "User")
      c1opts).1.error ≠ some (.custom "CUSTOM") := by
  constructor
  · rfl
  · decide

/-- C1 (amended): on the not-found path the override precedence is
`options.errorMessage` (when truthy) first, then `options.onNotFound`
(pre-built error, else factory applied to the parameter name and stringified
value), and only otherwise the default templated not-found error. -/
theorem c1_notfound_precedence {V R : Type} (vstr : V → String)
    (adapter : Adapter V R) (cache : Cache R) (now : Nat) (req : Req R)
    (paramName : String) (model : ModelDesc) (options : BindOptions V R)
    (pv : String) (value : V)
    (hpv : mapFind? req.params paramName = some pv) (hne : pv ≠ "")
    (hvalid : adapter.isValidModel model = true)
    (htrans : transformedValue adapter model options
      (resolveKey adapter model options) pv = .ok value)
    (hmiss : CacheOpt.truthy options.cache = true →
      (cache.get now (getCacheKey vstr model (resolveKey adapter model options)
        value options)).1 = none)
    (hfind : adapter.findByKey model (resolveKey adapter model options) value
      options = .ok none)
    (hopt : options.optional = false) :
    (bind vstr adapter cache now req paramName model options).1.success =
      false ∧
    (bind vstr adapter cache now req paramName model options).1.error =
      some (if truthyStr options.errorMessage then
        Err.modelNotFound paramName (vstr value) (getModelName model)
          options.errorMessage
      else
        match options.onNotFound with
        | some (.err e) => e
        | some (.factory f) => f paramName (vstr value)
        | none =>
          Err.modelNotFound paramName (vstr value) (getModelName model)
            none) := by
  have hb := bindBody_fetch vstr adapter cache now req paramName model options
    pv value hpv hne hvalid htrans hmiss
  have hf : fetchAndFinish vstr adapter
      (if CacheOpt.truthy options.cache then
        (cache.get now (getCacheKey vstr model
          (resolveKey adapter model options) value options)).2
      else cache) now req paramName model options
      (resolveKey adapter model options) value
      (getCacheKey vstr model (resolveKey adapter model options) value
        options) =
      .error (notFoundError vstr paramName value model options,
        if CacheOpt.truthy options.cache then
          (cache.get now (getCacheKey vstr model
            (resolveKey adapter model options) value options)).2
        else cache) := by
    unfold fetchAndFinish
    simp only [hfind]
    rw [if_neg (by rw [hopt]; simp)]
  rw [bind_of_body_error vstr adapter cache now req paramName model options _
    _ (hb.trans hf)]
  exact ⟨rfl, rfl⟩

/-- Witness for C1: with both overrides supplied, the message override wins
and produces a not-found error with the custom message. -/
theorem c1_notfound_precedence_witness :
    (bind idStr adapterMiss cache0 0 reqUser999 "user" (.str "User")
      c1opts).1.success = false ∧
    (bind idStr adapterMiss cache0 0 reqUser999 "user" (.str "User")
      c1opts).1.error =
      some (.modelNotFound "user" "999" "User" (some "boom")) := by
  have h := c1_notfound_precedence idStr adapterMiss cache0 0 reqUser999
    "user" (.str "User") c1opts "999" "999" rfl (by decide) rfl rfl
    (fun _ => rfl) rfl rfl
  exact ⟨h.1, h.2⟩

/-- C3 counterexample: for bind(user, 999, User, \x7b\x7d) against an adapter
whose primary key is `id`, the lookup field resolves to `id` but the default
not-found message is templated with the parameter name `user`, so the message
is not the template instantiated with the lookup field. -/
theorem c3_counterexample :
    resolveKey adapterMiss (.str "User") (emptyOptions : BindOptions String Nat)
      = "id" ∧
    (bind idStr adapterMiss cache0 0 reqUser999 "user" (.str "User")
      emptyOptions).1.error.map Err.message =
      some "User not found with user = 999" ∧
    (bind idStr adapterMiss cache0 0 reqUser999 "user" (.str "User")
      emptyOptions).1.error.map Err.message ≠
      some ("User not found with " ++
        resolveKey adapterMiss (.str "User")
          (emptyOptions : BindOptions String Nat) ++ " = 999") := by
  refine ⟨rfl, rfl, ?_⟩
  decide

/-- C3 (amended): on the default not-found path the error carries the
parameter name, the stringified lookup value and the resolved model name, and
its message is the template instantiated with the model name, the parameter
name (not the lookup field) and the stringified lookup value. -/
theorem c3_default_notfound {V R : Type} (vstr : V → String)
    (adapter : Adapter V R) (cache : Cache R) (now : Nat) (req : Req R)
    (paramName : String) (model : ModelDesc) (options : BindOptions V R)
    (pv : String) (value : V)
    (hpv : mapFind? req.params paramName = some pv) (hne : pv ≠ "")
    (hvalid : adapter.isValidModel model = true)
    (htrans : transformedValue adapter model options
      (resolveKey adapter model options) pv = .ok value)
    (hmiss : CacheOpt.truthy options.cache = true →
      (cache.get now (getCacheKey vstr model (resolveKey adapter model options)
        value options)).1 = none)
    (hfind : adapter.findByKey model (resolveKey adapter model options) value
      options = .ok none)
    (hopt : options.optional = false)
    (hmsg : truthyStr options.errorMessage = false)
    (hnf : options.onNotFound = none) :
    (bind vstr adapter cache now req paramName model options).1.success =
      false ∧
    (bind vstr adapter cache now req paramName model options).1.error =
      some (Err.modelNotFound paramName (vstr value) (getModelName model)
        none) ∧
    (Err.modelNotFound paramName (vstr value) (getModelName model)
        none).message =
      getModelName model ++ " not found with " ++ paramName ++ " = " ++
        vstr value ∧
    (Err.modelNotFound paramName (vstr value) (getModelName model)
        none).paramNameOf = some paramName ∧
    (Err.modelNotFound paramName (vstr value) (getModelName model)
        none).paramValueOf = some (vstr value) ∧
    (Err.modelNotFound paramName (vstr value) (getModelName model)
        none).modelNameOf = some (getModelName model) ∧
    (Err.modelNotFound paramName (vstr value) (getModelName model)
        none).isNotFound = true := by
  have hb := bindBody_fetch vstr adapter cache now req paramName model options
    pv value hpv hne hvalid htrans hmiss
  have hferr : notFoundError vstr paramName value model options =
      Err.modelNotFound paramName (vstr value) (getModelName model) none := by
    unfold notFoundError
    rw [if_neg (by rw [hmsg]; simp), hnf]
  have hf : fetchAndFinish vstr adapter
      (if CacheOpt.truthy options.cache then
        (cache.get now (getCacheKey vstr model
          (resolveKey adapter model options) value options)).2
      else cache) now req paramName model options
      (resolveKey adapter model options) value
      (getCacheKey vstr model (resolveKey adapter model options) value
        options) =
      .error (notFoundError vstr paramName value model options,
        if CacheOpt.truthy options.cache then
          (cache.get now (getCacheKey vstr model
            (resolveKey adapter model options) value options)).2
        else cache) := by
    unfold fetchAndFinish
    simp only [hfind]
    rw [if_neg (by rw [hopt]; simp)]
  rw [bind_of_body_error vstr adapter cache now req paramName model options _
    _ (hb.trans hf), hferr]
  exact ⟨rfl, rfl, rfl, rfl, rfl, rfl, rfl⟩

/-- Witness for C3: bind(user, 999, User, \x7b\x7d) against an empty adapter
yields the default not-found error with paramValue 999. -/
theorem c3_default_notfound_witness :
    (bind idStr adapterMiss cache0 0 reqUser999 "user" (.str "User")
      emptyOptions).1.error =
      some (.modelNotFound "user" "999" "User" none) ∧
    (Err.modelNotFound "user" "999" "User" none).paramValueOf = some "999" ∧
    (Err.modelNotFound "user" "999" "User" none).message =
      "User not found with user = 999" := by
  have h := c3_default_notfound idStr adapterMiss cache0 0 reqUser999 "user"
    (.str "User") emptyOptions "999" "999" rfl (by decide) rfl rfl
    (fun _ => rfl) rfl rfl rfl rfl
  exact ⟨h.2.1, h.2.2.2.2.1, by decide⟩

/-- C5: with caching requested and a live cached entry under the computed
key, bind short-circuits to a successful result carrying the cached value
with fromCache true, attaches it, and never consults the adapter lookup: the
outcome is identical for any findByKey whatsoever, so later calls keep
returning the cached value even after the data source changes. -/
theorem c5_cache_hit {V R : Type} (vstr : V → String) (adapter : Adapter V R)
    (cache : Cache R) (now : Nat) (req : Req R) (paramName : String)
    (model : ModelDesc) (options : BindOptions V R) (pv : String) (value : V)
    (cached : R)
    (hpv : mapFind? req.params paramName = some pv) (hne : pv ≠ "")
    (hvalid : adapter.isValidModel model = true)
    (htrans : transformedValue adapter model options
      (resolveKey adapter model options) pv = .ok value)
    (ht : CacheOpt.truthy options.cache = true)
    (hhit : (cache.get now (getCacheKey vstr model
      (resolveKey adapter model options) value options)).1 = some cached) :
    bind vstr adapter cache now req paramName model options =
      ({ success := true, model := some cached, error := none,
         fromCache := some true },
        attachToRequest req (attachName options paramName) (some cached),
        (cache.get now (getCacheKey vstr model
          (resolveKey adapter model options) value options)).2) ∧
    (∀ f2, bind vstr { adapter with findByKey := f2 } cache now req paramName
        model options =
      bind vstr adapter cache now req paramName model options) := by
  constructor
  · exact bind_of_body_ok _ _ _ _ _ _ _ _ _
      (bindBody_hit vstr adapter cache now req paramName model options pv
        value cached hpv hne hvalid htrans ht hhit)
  · intro f2
    rw [bind_of_body_ok _ _ _ _ _ _ _ _ _
      (bindBody_hit vstr { adapter with findByKey := f2 } cache now req
        paramName model options pv value cached hpv hne hvalid htrans ht hhit),
      bind_of_body_ok _ _ _ _ _ _ _ _ _
      (bindBody_hit vstr adapter cache now req paramName model options pv
        value cached hpv hne hvalid htrans ht hhit)]
    rfl

/-- Witness for C5: a populated cache answers the binding with fromCache true
even though the adapter finds nothing. -/
theorem c5_cache_hit_witness :
    bind idStr adapterMiss c5cache 0 reqUser1 "user" (.str "User") c5opts =
      ({ success := true, model := some 1, error := none,
         fromCache := some true },
        attachToRequest reqUser1 "user" (some 1), c5cache) ∧
    bind idStr
      { adapterMiss with findByKey := fun _ _ _ _ => .error (.custom "down") }
      c5cache 0 reqUser1 "user" (.str "User") c5opts =
      bind idStr adapterMiss c5cache 0 reqUser1 "user" (.str "User") c5opts := by
  have h := c5_cache_hit idStr adapterMiss c5cache 0 reqUser1 "user"
    (.str "User") c5opts "1" "1" 1 rfl (by decide) rfl rfl rfl rfl
  exact ⟨h.1, h.2 _⟩

/-- C6: a present validator runs only after not-found handling and before any
cache write or request attachment: when the fetched record is rejected the
binding fails with exactly the validator error, the request keeps its
pre-call attachments, and the cache receives no entry for the call; when the
adapter misses, the outcome is the not-found failure no matter which
validator is configured. -/
theorem c6_validate {V R : Type} (vstr : V → String) (adapter : Adapter V R)
    (cache : Cache R) (now : Nat) (req : Req R) (paramName : String)
    (model : ModelDesc) (options : BindOptions V R) (pv : String) (value : V)
    (hpv : mapFind? req.params paramName = some pv) (hne : pv ≠ "")
    (hvalid : adapter.isValidModel model = true)
    (htrans : transformedValue adapter model options
      (resolveKey adapter model options) pv = .ok value)
    (hmiss : CacheOpt.truthy options.cache = true →
      (cache.get now (getCacheKey vstr model (resolveKey adapter model options)
        value options)).1 = none) :
    (∀ (result : R) (e : Err),
      adapter.findByKey model (resolveKey adapter model options) value options
        = .ok (some result) →
      runValidate options result req = .error e →
      bind vstr adapter cache now req paramName model options =
        ({ success := false, model := none, error := some e,
           fromCache := none }, req,
          if CacheOpt.truthy options.cache then
            (cache.get now (getCacheKey vstr model
              (resolveKey adapter model options) value options)).2
          else cache)) ∧
    (∀ v2, adapter.findByKey model (resolveKey adapter model options) value
        { options with validate := v2 } = .ok none →
      options.optional = false →
      bind vstr adapter cache now req paramName model
        { options with validate := v2 } =
        ({ success := false, model := none,
           error := some (notFoundError vstr paramName value model options),
           fromCache := none }, req,
          if CacheOpt.truthy options.cache then
            (cache.get now (getCacheKey vstr model
              (resolveKey adapter model options) value options)).2
          else cache)) := by
  constructor
  · intro result e hfind hval
    have hb := bindBody_fetch vstr adapter cache now req paramName model
      options pv value hpv hne hvalid htrans hmiss
    have hf : fetchAndFinish vstr adapter
        (if CacheOpt.truthy options.cache then
          (cache.get now (getCacheKey vstr model
            (resolveKey adapter model options) value options)).2
        else cache) now req paramName model options
        (resolveKey adapter model options) value
        (getCacheKey vstr model (resolveKey adapter model options) value
          options) =
        .error (e,
          if CacheOpt.truthy options.cache then
            (cache.get now (getCacheKey vstr model
              (resolveKey adapter model options) value options)).2
          else cache) := by
      unfold fetchAndFinish
      simp only [hfind, hval]
    exact bind_of_body_error vstr adapter cache now req paramName model
      options _ _ (hb.trans hf)
  · intro v2 hfind hopt
    have hb := bindBody_fetch vstr adapter cache now req paramName model
      { options with validate := v2 } pv value hpv hne hvalid htrans hmiss
    have hf : fetchAndFinish vstr adapter
        (if CacheOpt.truthy options.cache then
          (cache.get now (getCacheKey vstr model
            (resolveKey adapter model options) value options)).2
        else cache) now req paramName model { options with validate := v2 }
        (resolveKey adapter model options) value
        (getCacheKey vstr model (resolveKey adapter model options) value
          options) =
        .error (notFoundError vstr paramName value model options,
          if CacheOpt.truthy options.cache then
            (cache.get now (getCacheKey vstr model
              (resolveKey adapter model options) value options)).2
          else cache) := by
      unfold fetchAndFinish
      simp only [hfind]
      rw [if_neg (by rw [show ({ options with validate := v2 } :
        BindOptions V R).optional = options.optional from rfl, hopt]; simp)]
      rfl
    exact bind_of_body_error vstr adapter cache now req paramName model
      { options with validate := v2 } _ _ (hb.trans hf)

/-- Witness for C6: a validator that throws Forbidden turns an otherwise
successful fetch into a failure carrying that error, with no attachment and
no cache write. -/
theorem c6_validate_witness :
    bind idStr adapterOne cache0 0 reqUser1 "user" (.str "User") c6opts =
      ({ success := false, model := none,
         error := some (.custom "Forbidden"), fromCache := none },
        reqUser1, cache0) :=
  ((c6_validate idStr adapterOne cache0 0 reqUser1 "user" (.str "User")
    c6opts "1" "1" rfl (by decide) rfl rfl (fun _ => rfl)).1 1
    (.custom "Forbidden") rfl rfl)

/-- maxSize is unchanged by sequential insertion. -/
theorem insertSeq_maxSize {α : Type} (now : Nat) (v : α) (ttl : Nat) :
    ∀ (ks : List String) (c : Cache α),
      (insertSeq c now v ttl ks).maxSize = c.maxSize := by
  intro ks
  induction ks with
  | nil => intro c; rfl
  | cons k rest ih =>
    intro c
    show (insertSeq (c.set now k v ttl) now v ttl rest).maxSize = _
    rw [ih]
    rfl

/-- C2 counterexample: in a capacity-2 cache holding a and b, re-setting the
already-resident key b evicts a, refuting the claim that a set on a resident
key overwrites without evicting any other entry. -/
theorem c2_counterexample :
    ((((Cache.empty 2 : Cache Nat).set 0 "a" 1 100).set 0 "b" 2
      100).store.map Prod.fst = ["a", "b"]) ∧
    (((((Cache.empty 2 : Cache Nat).set 0 "a" 1 100).set 0 "b" 2 100).set 0
      "b" 3 100).store.map Prod.fst = ["b"]) := by
  constructor <;> decide

/-- C2 (amended): over any operation sequence on a well-formed cache with
capacity at least one and nonempty written keys, the resident-entry count
never exceeds maxSize; a set at capacity with a fresh nonempty key evicts
exactly the insertion-oldest entry; a set on a resident key overwrites
in place without evicting only below capacity, while at capacity it also
evicts the insertion-oldest key whenever that differs from the written key;
and inserting maxSize + 1 distinct nonempty keys into an empty cache leaves
exactly the last maxSize of them resident, the first-inserted key absent. -/
theorem c2_cache_bounds (α : Type) :
    (∀ (c0 : Cache α) (ops : List (CacheOp α)), c0.WF → 1 ≤ c0.maxSize →
      (∀ op ∈ ops, op.setKeyNe) →
      (applyOps c0 ops).size ≤ c0.maxSize) ∧
    (∀ (c : Cache α) (now : Nat) (k : String) (v : α) (ttl : Nat), c.WF →
      c.size = c.maxSize → 1 ≤ c.maxSize → k ∉ residentKeys c →
      residentKeys (c.set now k v ttl) = (residentKeys c).tail ++ [k]) ∧
    (∀ (c : Cache α) (now : Nat) (k : String) (v : α) (ttl : Nat),
      c.size < c.maxSize → k ∈ residentKeys c →
      residentKeys (c.set now k v ttl) = residentKeys c) ∧
    (∀ (c : Cache α) (now : Nat) (k : String) (v : α) (ttl : Nat)
      (h0 : String), c.WF → c.size = c.maxSize → 1 ≤ c.maxSize →
      (residentKeys c).head? = some h0 → h0 ≠ k →
      h0 ∉ residentKeys (c.set now k v ttl)) ∧
    (∀ (maxSize now : Nat) (v : α) (ttl : Nat) (k0 : String)
      (krest : List String), (k0 :: krest).Nodup →
      (∀ k ∈ k0 :: krest, k ≠ "") → 1 ≤ maxSize → krest.length = maxSize →
      residentKeys (insertSeq (Cache.empty maxSize) now v ttl (k0 :: krest)) =
        krest ∧
      (insertSeq (Cache.empty maxSize) now v ttl (k0 :: krest)).size =
        maxSize ∧
      k0 ∉ residentKeys (insertSeq (Cache.empty maxSize) now v ttl
        (k0 :: krest))) := by
  refine ⟨?_, ?_, ?_, ?_, ?_⟩
  · intro c0 ops hwf hmax hops
    obtain ⟨⟨_, _, hlen⟩, hms⟩ := WF_applyOps c0 ops hwf hmax hops
    show (applyOps c0 ops).store.length ≤ c0.maxSize
    rw [← hms]
    exact hlen
  · intro c now k v ttl hwf hfull hmax hfresh
    exact set_full_fresh_keys c now k v ttl hwf hfull hmax hfresh
  · intro c now k v ttl hlt hmem
    exact (set_below_resident c now k v ttl hlt hmem).1
  · intro c now k v ttl h0 hwf hfull hmax hhead hne0
    exact set_full_evicts_head c now k v ttl h0 hwf hfull hmax hhead hne0
  · intro maxSize now v ttl k0 krest hnd hne hmax hlen
    rcases List.eq_nil_or_concat krest with hh | ⟨krest0, klast, hh⟩
    · rw [hh] at hlen
      simp at hlen
      omega
    rw [List.concat_eq_append] at hh
    subst hh
    have hndc := hnd
    rw [List.nodup_cons] at hndc
    obtain ⟨hk0, hrest⟩ := hndc
    obtain ⟨hnd0, _, hdisj⟩ := List.nodup_append.mp hrest
    have hlastnot0 : klast ∉ krest0 := fun hmem =>
      hdisj hmem (List.mem_singleton_self klast)
    have hk0last : k0 ≠ klast := fun hh =>
      hk0 (List.mem_append.mpr (Or.inr (hh ▸ List.mem_singleton_self klast)))
    have hk00 : k0 ∉ krest0 := fun hmem =>
      hk0 (List.mem_append.mpr (Or.inl hmem))
    have hndfront : (k0 :: krest0).Nodup := by
      rw [List.nodup_cons]
      exact ⟨hk00, hnd0⟩
    have hlen0 : krest0.length + 1 = maxSize := by
      rw [List.length_append] at hlen
      simpa using hlen
    have hfront : (insertSeq (Cache.empty maxSize : Cache α) now v ttl
        (k0 :: krest0)).store =
        (k0 :: krest0).map
          (fun k => (k, { value := v, timestamp := now, ttl := ttl })) := by
      have := insertSeq_fresh now v ttl (k0 :: krest0)
        (Cache.empty maxSize : Cache α) hndfront (by simp [Cache.empty])
        (by simp [Cache.empty]; omega)
      simpa [Cache.empty] using this
    have hkeys : residentKeys (insertSeq (Cache.empty maxSize : Cache α) now v
        ttl (k0 :: krest0)) = k0 :: krest0 := by
      rw [residentKeys, hfront, List.map_map]
      exact List.map_id _
    have hsize : (insertSeq (Cache.empty maxSize : Cache α) now v ttl
        (k0 :: krest0)).store.length = maxSize := by
      rw [hfront]
      simp
      omega
    have hms : (insertSeq (Cache.empty maxSize : Cache α) now v ttl
        (k0 :: krest0)).maxSize = maxSize :=
      insertSeq_maxSize now v ttl (k0 :: krest0) (Cache.empty maxSize)
    have hWF : (insertSeq (Cache.empty maxSize : Cache α) now v ttl
        (k0 :: krest0)).WF := by
      refine ⟨?_, ?_, ?_⟩
      · rw [show (insertSeq (Cache.empty maxSize : Cache α) now v ttl
          (k0 :: krest0)).store.map Prod.fst = k0 :: krest0 from hkeys]
        exact hndfront
      · intro kk hkk
        rw [show (insertSeq (Cache.empty maxSize : Cache α) now v ttl
          (k0 :: krest0)).store.map Prod.fst = k0 :: krest0 from hkeys] at hkk
        rcases List.mem_cons.mp hkk with h1 | h1
        · exact h1 ▸ hne k0 (List.mem_cons_self _ _)
        · exact hne kk (List.mem_cons_of_mem _
            (List.mem_append.mpr (Or.inl h1)))
      · rw [hsize, hms]
    have hfreshlast : klast ∉ residentKeys (insertSeq
        (Cache.empty maxSize : Cache α) now v ttl (k0 :: krest0)) := by
      rw [hkeys]
      intro hmem
      rcases List.mem_cons.mp hmem with h1 | h1
      · exact hk0last h1.symm
      · exact hlastnot0 h1
    have hsplit : insertSeq (Cache.empty maxSize : Cache α) now v ttl
        (k0 :: (krest0 ++ [klast])) =
        (insertSeq (Cache.empty maxSize : Cache α) now v ttl
          (k0 :: krest0)).set now klast v ttl := by
      unfold insertSeq
      rw [show (k0 :: (krest0 ++ [klast])) = (k0 :: krest0) ++ [klast] by simp,
        List.foldl_append]
      rfl
    have hkeys2 := set_full_fresh_keys
      (insertSeq (Cache.empty maxSize : Cache α) now v ttl (k0 :: krest0))
      now klast v ttl hWF
      (by show (insertSeq (Cache.empty maxSize : Cache α) now v ttl
        (k0 :: krest0)).store.length = _; rw [hsize, hms]) (by rw [hms]; omega)
      hfreshlast
    rw [hsplit]
    refine ⟨?_, ?_, ?_⟩
    · rw [hkeys2, hkeys]
      rfl
    · have : ((insertSeq (Cache.empty maxSize : Cache α) now v ttl
          (k0 :: krest0)).set now klast v ttl).size =
          (residentKeys ((insertSeq (Cache.empty maxSize : Cache α) now v ttl
            (k0 :: krest0)).set now klast v ttl)).length := by
        rw [residentKeys, List.length_map]
        rfl
      rw [this, hkeys2, hkeys]
      simpa using hlen0
    · rw [hkeys2, hkeys]
      intro hmem
      rcases List.mem_append.mp hmem with h1 | h1
      · exact hk00 (by simpa using h1)
      · exact hk0last (List.mem_singleton.mp h1)

/-- Witness for C2: capacity 2, inserting a, b, c leaves exactly b and c
resident with a evicted. -/
theorem c2_cache_bounds_witness :
    (["a", "b", "c"] : List String).Nodup ∧
    residentKeys (insertSeq (Cache.empty 2 : Cache Nat) 0 7 9 ["a", "b", "c"])
      = ["b", "c"] ∧
    (insertSeq (Cache.empty 2 : Cache Nat) 0 7 9 ["a", "b", "c"]).size = 2 ∧
    "a" ∉ residentKeys (insertSeq (Cache.empty 2 : Cache Nat) 0 7 9
      ["a", "b", "c"]) :=
  ⟨by decide,
   (c2_cache_bounds Nat).2.2.2.2 2 0 7 9 "a" ["b", "c"] (by decide)
     (by decide) (by decide) rfl⟩

/-- Nodup keys survive Cache.set. -/
theorem nodup_keys_set {α : Type} (c : Cache α) (now : Nat) (k : String)
    (v : α) (ttl : Nat) (hnd : (c.store.map Prod.fst).Nodup) :
    ((c.set now k v ttl).store.map Prod.fst).Nodup := by
  unfold Cache.set
  apply nodup_keys_mapSet
  split
  · split
    · split
      · exact hnd
      · exact nodup_keys_mapDelete _ hnd
    · exact hnd
  · exact hnd

/-- Splitting a list length by a predicate. -/
theorem length_filter_not_add_countP {γ : Type} (l : List γ) (p : γ → Bool) :
    (l.filter (fun x => !(p x))).length + l.countP p = l.length := by
  induction l with
  | nil => rfl
  | cons a t ih =>
    by_cases h : p a <;> simp [List.filter_cons, List.countP_cons, h] <;> omega

/-- C8: set followed immediately by get returns the stored value; a get after
more than ttl milliseconds returns absent and deletes the expired entry, so
the size drops by one and the key is gone; prune removes exactly the expired
resident entries, returns their count, and shrinks the size by it. -/
theorem c8_cache_roundtrip (α : Type) :
    (∀ (c : Cache α) (now : Nat) (k : String) (v : α) (ttl : Nat),
      ((c.set now k v ttl).get now k).1 = some v) ∧
    (∀ (c : Cache α) (t t2 : Nat) (k : String) (v : α) (ttl : Nat),
      (c.store.map Prod.fst).Nodup → t2 - t > ttl →
      (((c.set t k v ttl).get t2 k).1 = none ∧
       ((c.set t k v ttl).get t2 k).2.size + 1 = (c.set t k v ttl).size ∧
       k ∉ residentKeys (((c.set t k v ttl).get t2 k).2))) ∧
    (∀ (c : Cache α) (now : Nat),
      (c.prune now).1 = c.store.countP (fun p => CacheEntry.expired now p.2) ∧
      (c.prune now).2.store =
        c.store.filter (fun p => !(CacheEntry.expired now p.2)) ∧
      (c.prune now).2.size + (c.prune now).1 = c.size) := by
  refine ⟨?_, ?_, ?_⟩
  · intro c now k v ttl
    exact get_after_set c now k v ttl
  · intro c t t2 k v ttl hnd hexp
    exact get_expired (c.set t k v ttl) t2 k
      { value := v, timestamp := t, ttl := ttl }
      (mapFind?_mapSet_self _ _ _) hexp (nodup_keys_set c t k v ttl hnd)
  · intro c now
    show ((pruneStore now c.store).1 = _) ∧
      ((pruneStore now c.store).2 = _) ∧
      ((pruneStore now c.store).2.length + (pruneStore now c.store).1 =
        c.store.length)
    rw [pruneStore_eq]
    exact ⟨rfl, rfl, length_filter_not_add_countP c.store _⟩

/-- Witness for C8: an entry with 10 ms ttl set at time 0 is readable at time
0 and gone at time 11, with the size dropping back to zero. -/
theorem c8_cache_roundtrip_witness :
    (((cache0.set 0 "k" 5 10).get 0 "k").1 = some 5) ∧
    (((cache0.set 0 "k" 5 10).get 11 "k").1 = none) ∧
    ((cache0.set 0 "k" 5 10).get 11 "k").2.size + 1 =
      (cache0.set 0 "k" 5 10).size := by
  have h2 := ((c8_cache_roundtrip Nat).2.1) cache0 0 11 "k" 5 10 (by decide)
    (by decide)
  exact ⟨(c8_cache_roundtrip Nat).1 cache0 0 "k" 5 10, h2.1, h2.2.1⟩

/-- C9: the bindModels middleware resolves its parameters strictly in
configuration order: running a split configuration runs the first part and
continues with the rest exactly when no error was produced, so the first
failure stops the loop and is forwarded while later parameters are never
resolved; request properties outside the executed attach names are never
touched, so earlier successful attachments survive a later failure; and an
absent optional parameter is skipped without stopping the sequence. -/
theorem c9_multi_binding {V R : Type} (vstr : V → String)
    (adapterQ : Option (Adapter V R)) (now : Nat) :
    (∀ (l1 l2 : List (String × BindingConfig V R)) (req : Req R)
      (cache : Cache R),
      bindModelsRun vstr adapterQ now (l1 ++ l2) req cache =
        match bindModelsRun vstr adapterQ now l1 req cache with
        | (none, r, c) => bindModelsRun vstr adapterQ now l2 r c
        | (some e, r, c) => (some e, r, c)) ∧
    (∀ (l : List (String × BindingConfig V R)) (req : Req R) (cache : Cache R)
      (n : String), (∀ pc ∈ l, n ≠ entryAttachName pc) →
      mapFind? ((bindModelsRun vstr adapterQ now l req cache).2.1).attached n
        = mapFind? req.attached n) ∧
    (∀ (p : String) (config : BindingConfig V R)
      (rest : List (String × BindingConfig V R)) (req : Req R)
      (cache : Cache R), mapFind? req.params p = none →
      configOptional config = true →
      bindModelsRun vstr adapterQ now ((p, config) :: rest) req cache =
        bindModelsRun vstr adapterQ now rest req cache) :=
  ⟨bindModelsRun_append vstr adapterQ now,
   bindModelsRun_attached_other vstr adapterQ now,
   fun p config rest req cache h1 h2 =>
     bindModelsRun_skip vstr adapterQ now p config rest req cache h1 h2⟩

/-- Witness for C9: a missing optional post parameter is skipped and the loop
continues with the user parameter. -/
theorem c9_multi_binding_witness :
    bindModelsRun idStr (some adapterOne) 0
      [("post", postOptionalCfg), ("user", userRequiredCfg)] reqUser1 cache0 =
    bindModelsRun idStr (some adapterOne) 0 [("user", userRequiredCfg)]
      reqUser1 cache0 :=
  (c9_multi_binding idStr (some adapterOne) 0).2.2 "post" postOptionalCfg
    [("user", userRequiredCfg)] reqUser1 cache0 rfl rfl

/-- C10: before the orchestrator runs, both middlewares replace the route
parameter in req.params by its sanitized value: absent or empty values become
the empty string, values within the cap pass unchanged, longer values are cut
to their first MAX_PARAM_VALUE_LENGTH characters; every sanitized value fits
the cap, so the value the orchestrator and adapter observe is never longer
than 1024 characters. -/
theorem c10_sanitization {V R : Type} (vstr : V → String)
    (adapterQ : Option (Adapter V R)) (now : Nat) :
    (sanitizeParamValue none = "" ∧ sanitizeParamValue (some "") = "") ∧
    (∀ s : String, s ≠ "" → s.length ≤ MAX_PARAM_VALUE_LENGTH →
      sanitizeParamValue (some s) = s) ∧
    (∀ s : String, s.length > MAX_PARAM_VALUE_LENGTH →
      sanitizeParamValue (some s) =
        (s.toList.take MAX_PARAM_VALUE_LENGTH).asString) ∧
    (∀ v : Option String,
      (sanitizeParamValue v).length ≤ MAX_PARAM_VALUE_LENGTH) ∧
    (∀ (req : Req R) (p : String),
      mapFind? (sanitizeReq req p).params p =
        some (sanitizeParamValue (mapFind? req.params p)) ∧
      (∀ pv, mapFind? (sanitizeReq req p).params p = some pv →
        pv.length ≤ MAX_PARAM_VALUE_LENGTH)) ∧
    (∀ (paramName : String) (model : ModelDesc) (options : BindOptions V R)
      (req : Req R) (cache : Cache R),
      ¬((mapFind? req.params paramName).isNone = true ∧
        options.optional = true) →
      bindModelRun vstr adapterQ now paramName model options req cache =
        mwOutcome cache (sanitizeReq req paramName)
          (bindTop vstr adapterQ cache now (sanitizeReq req paramName)
            paramName model options)) ∧
    (∀ (paramName : String) (config : BindingConfig V R) (req : Req R)
      (cache : Cache R),
      ¬((mapFind? req.params paramName).isNone = true ∧
        configOptional config = true) →
      bindModelsStep vstr adapterQ now paramName config req cache =
        mwOutcome cache (sanitizeReq req paramName)
          (bindTop vstr adapterQ cache now (sanitizeReq req paramName)
            paramName config.model (configOptions config))) := by
  refine ⟨⟨rfl, rfl⟩, sanitize_short, sanitize_long, sanitize_length_le,
    ?_, ?_, ?_⟩
  · intro req p
    refine ⟨sanitizeReq_param req p, ?_⟩
    intro pv hpv
    rw [sanitizeReq_param req p] at hpv
    cases hpv
    exact sanitize_length_le _
  · intro paramName model options req cache hns
    exact bindModelRun_not_skip vstr adapterQ now paramName model options req
      cache hns
  · intro paramName config req cache hns
    exact bindModelsStep_not_skip vstr adapterQ now paramName config req cache
      hns

/-- Witness for C10: a 2000-character value is truncated to its first 1024
characters and the sanitized value fits the cap. -/
theorem c10_sanitization_witness :
    longStr.length > MAX_PARAM_VALUE_LENGTH ∧
    sanitizeParamValue (some longStr) =
      (longStr.toList.take MAX_PARAM_VALUE_LENGTH).asString ∧
    (sanitizeParamValue (some longStr)).length ≤ MAX_PARAM_VALUE_LENGTH := by
  have hlong : longStr.length > MAX_PARAM_VALUE_LENGTH := by
    unfold longStr
    rw [List.length_asString, List.length_replicate]
    decide
  exact ⟨hlong,
    ((c10_sanitization idStr (some adapterMiss) 0).2.2.1 : ∀ s : String, _)
      longStr hlong,
    (c10_sanitization idStr (some adapterMiss) 0).2.2.2.1 (some longStr)⟩

end MB
